import Mathlib

/-!
Verification of the Rifty utterance-understanding pipeline
(services/python-ai/app/agent) against its natural-language specification.

The Python sources are shallowly embedded: floats become exact rationals,
millisecond timestamps become integers, Python dictionaries become
association lists that preserve insertion order, and the regular-expression
calls of the source are evaluated by a small backtracking engine that
reproduces the leftmost, priority-ordered match semantics of the `re`
module for the pattern features the source uses.  The only operations that
cannot be represented exactly over the rationals, the square root inside
`l2_normalize` and `math.exp` inside the logistic recency score, are passed
in as explicit function parameters; no claim below depends on their values.
-/

namespace Rifty

/-! ## Basic character and list helpers (ASCII semantics of the Python source) -/

/-- ASCII word character, matching the `\w` shorthand and `\b` boundaries of
the Python `re` module on ASCII input. -/
def isWordChar (c : Char) : Bool :=
  c.isAlpha || c.isDigit || c = '_'

/-- ASCII whitespace, matching the `\s` shorthand of the Python `re` module
and `str.strip`/`str.split` on ASCII input. -/
def isSpaceChar (c : Char) : Bool :=
  c = ' ' || c = '\t' || c = '\n' || c = '\r' || c = '\x0b' || c = '\x0c'

/-- `str.strip()` on ASCII input. -/
def stripChars (s : List Char) : List Char :=
  ((s.dropWhile isSpaceChar).reverse.dropWhile isSpaceChar).reverse

def lowerChars (s : List Char) : List Char :=
  s.map Char.toLower

/-- Does `hay` start with `needle`? -/
def startsWithCh : List Char → List Char → Bool
  | [], _ => true
  | _ :: _, [] => false
  | a :: as, b :: bs => a = b && startsWithCh as bs

/-- Does `hay` end with `needle`? -/
def endsWithCh (needle hay : List Char) : Bool :=
  startsWithCh needle.reverse hay.reverse

/-- Python `needle in hay` substring containment. -/
def containsSub (needle : List Char) : List Char → Bool
  | [] => startsWithCh needle []
  | c :: t => startsWithCh needle (c :: t) || containsSub needle t

def stripStr (s : String) : String := String.mk (stripChars s.toList)

def lowerStr (s : String) : String := String.mk (lowerChars s.toList)

/-- Python `needle in hay` on strings. -/
def containsStr (needle hay : String) : Bool := containsSub needle.toList hay.toList

/-- Maximal runs of characters satisfying `p`; `re.split` on the complement
followed by dropping empty pieces produces exactly these runs. -/
def splitRunsAux (p : Char → Bool) : List Char → List Char → List (List Char)
  | acc, [] => if acc = [] then [] else [acc.reverse]
  | acc, c :: t =>
    if p c then splitRunsAux p (c :: acc) t
    else (if acc = [] then [] else [acc.reverse]) ++ splitRunsAux p [] t

def splitRuns (p : Char → Bool) (s : List Char) : List (List Char) :=
  splitRunsAux p [] s

/-! ## services/python-ai/app/agent/context_window.py -/

def MAX_SEMANTIC_TURNS : Nat := 10
def DECAY_FACTOR : ℚ := 0.6
def MIN_ACTIVE_SCORE : ℚ := 0.2

structure WindowState where
  entryId : String
  entryType : String
  createdAt : Int
  decayScore : ℚ
deriving DecidableEq, Repr

structure RecentMessage where
  text : List Char
  ts : Int
  score : ℚ
  isReceipt : Bool
deriving DecidableEq, Repr

/-- `_compute_message_score`: salience from token count and average token
length of the stripped, lowercased text. -/
def compute_message_score (text : List Char) : ℚ :=
  let trimmed := lowerChars (stripChars text)
  if trimmed = [] then 0
  else
    let tokens := splitRuns (fun c => c.isLower || c.isDigit) trimmed
    if tokens = [] then 0
    else
      let avg_length : ℚ := ((tokens.map List.length).sum : ℚ) / (tokens.length : ℚ)
      let base := min 1 ((tokens.length : ℚ) / 12)
      let lexical := min 1 (avg_length / 5)
      min 1 (base * 0.6 + lexical * 0.4)

/-- `_is_receipt_message`. -/
def is_receipt_message (text : List Char) : Bool :=
  containsSub "receipt".toList (lowerChars text) ||
    containsSub "confirmed".toList (lowerChars text)

/-- Descending-timestamp order used by `sort(key=ts, reverse=True)`; a stable
insertion sort with this relation reproduces the stable Python sort. -/
def tsGe (a b : RecentMessage) : Prop := b.ts ≤ a.ts

/-- Ascending-timestamp order used by `sort(key=ts)`. -/
def tsLe (a b : RecentMessage) : Prop := a.ts ≤ b.ts

instance : DecidableRel tsGe := fun a b => inferInstanceAs (Decidable (b.ts ≤ a.ts))

instance : DecidableRel tsLe := fun a b => inferInstanceAs (Decidable (a.ts ≤ b.ts))

instance : IsTotal RecentMessage tsGe := ⟨fun a b => le_total b.ts a.ts⟩

instance : IsTotal RecentMessage tsLe := ⟨fun a b => le_total a.ts b.ts⟩

instance : IsTrans RecentMessage tsGe := ⟨fun _ _ _ h1 h2 => le_trans h2 h1⟩

instance : IsTrans RecentMessage tsLe := ⟨fun _ _ _ h1 h2 => le_trans h1 h2⟩

/-- `_prune_low_signal_messages`: sort newest first, keep every receipt and
keep non-receipts while fewer than `MAX_SEMANTIC_TURNS` messages are kept,
then restore timestamp order and pop from the front while the list is longer
than `MAX_SEMANTIC_TURNS` (`drop (len - MAX)` is that while loop). -/
def prune_low_signal_messages (msgs : List RecentMessage) : List RecentMessage :=
  let sortedDesc := List.insertionSort tsGe msgs
  let preserved := sortedDesc.foldl
    (fun acc m =>
      if m.isReceipt then acc ++ [m]
      else if acc.length < MAX_SEMANTIC_TURNS then acc ++ [m]
      else acc) []
  let asc := List.insertionSort tsLe preserved
  asc.drop (asc.length - MAX_SEMANTIC_TURNS)

/-- `record_user_message`, acting on the window state and the recent-message
ring; the wall-clock timestamp of the message is a parameter. -/
def record_user_message (st : Option WindowState) (msgs : List RecentMessage)
    (text : List Char) (ts : Int) : Option WindowState × List RecentMessage :=
  if text = [] then (st, msgs)
  else
    let score := compute_message_score text
    let receipt := is_receipt_message text
    let message : RecentMessage := ⟨text, ts, if receipt then 1 else score, receipt⟩
    let ring := prune_low_signal_messages (msgs ++ [message])
    let st2 : Option WindowState :=
      match st with
      | none => none
      | some s =>
        let d := min 1 (s.decayScore * DECAY_FACTOR + message.score * 0.5)
        if d < MIN_ACTIVE_SCORE && !receipt then none else some { s with decayScore := d }
    (st2, ring)

/-- `_apply_decay` / `advance_turn`. -/
def apply_decay (st : Option WindowState) (created_entry : Bool) (now : Int) :
    Option WindowState :=
  match st with
  | none => none
  | some s =>
    if created_entry then some { s with decayScore := 1, createdAt := now }
    else
      let d := s.decayScore * DECAY_FACTOR
      if d < MIN_ACTIVE_SCORE then none else some { s with decayScore := d }

def advance_turn (st : Option WindowState) (created_entry : Bool) (now : Int) :
    Option WindowState :=
  apply_decay st created_entry now

/-- `register_entry`. -/
def register_entry (entry_id : String) (entry_type : String) (now : Int) :
    Option WindowState :=
  some ⟨entry_id, entry_type, now, 1⟩

structure WindowSnap where
  entryId : String
  entryType : String
  createdAt : Int
  decayScore : ℚ
  isActive : Bool
deriving DecidableEq, Repr

/-- `snapshot`. -/
def snapshot : Option WindowState → Option WindowSnap
  | none => none
  | some s =>
    some ⟨s.entryId, s.entryType, s.createdAt, s.decayScore,
      decide (MIN_ACTIVE_SCORE ≤ s.decayScore)⟩

/-- `recent()`: the last `MAX_SEMANTIC_TURNS` ring entries. -/
def recentOf (msgs : List RecentMessage) : List RecentMessage :=
  msgs.drop (msgs.length - MAX_SEMANTIC_TURNS)

/-! ## A small backtracking regex engine

Reproduces, for the pattern features used by the source, the semantics of
the Python `re` module: leftmost match, alternatives tried left to right,
greedy quantifiers tried longest first, with full backtracking.  A match
attempt enumerates every way a pattern can consume a prefix of the input in
exactly the priority order a backtracking engine visits them; the head of
that enumeration is the match Python reports. -/

inductive RE where
  /-- Empty pattern. -/
  | eps : RE
  /-- Single character from a character class. -/
  | cls : (Char → Bool) → RE
  | seq : RE → RE → RE
  /-- Alternation, left alternative preferred. -/
  | alt : RE → RE → RE
  /-- Greedy option. -/
  | opt : RE → RE
  /-- Greedy character-class repetition with bounds `lo .. hi`
  (`none` means unbounded). -/
  | rep : (Char → Bool) → Nat → Option Nat → RE
  /-- Word boundary assertion. -/
  | wb : RE
  /-- Lookahead assertion. -/
  | look : RE → RE
  /-- End-of-input assertion (Python `$` without MULTILINE). -/
  | eol : RE

/-- Length of the longest prefix made of characters in the class. -/
def runLen (p : Char → Bool) : List Char → Nat
  | [] => 0
  | c :: t => if p c then runLen p t + 1 else 0

/-- `countdown n lo = [lo + n - 1, ..., lo + 1, lo]`. -/
def countdown : Nat → Nat → List Nat
  | 0, _ => []
  | n + 1, lo => (lo + n) :: countdown n lo

/-- All ways a pattern can consume a prefix of the input, in backtracking
priority order.  Each way is given by the resulting remainder of the input
paired with the character immediately before that remainder (needed by the
word-boundary assertion). -/
def mrun : RE → Option Char → List Char → List (Option Char × List Char)
  | .eps, p, s => [(p, s)]
  | .cls c, p, s =>
    match p, s with
    | _, [] => []
    | _, ch :: rest => if c ch then [(some ch, rest)] else []
  | .seq a b, p, s => (mrun a p s).flatMap fun pr => mrun b pr.1 pr.2
  | .alt a b, p, s => mrun a p s ++ mrun b p s
  | .opt a, p, s => mrun a p s ++ [(p, s)]
  | .rep c lo hi, p, s =>
    let run := runLen c s
    let u := match hi with
      | some h => min run h
      | none => run
    if lo ≤ u then
      (countdown (u + 1 - lo) lo).map fun k =>
        (if k = 0 then p else s.get? (k - 1), s.drop k)
    else []
  | .wb, p, s =>
    let w1 := match p with
      | some c => isWordChar c
      | none => false
    let w2 := match s with
      | c :: _ => isWordChar c
      | [] => false
    if w1 != w2 then [(p, s)] else []
  | .look a, p, s => if (mrun a p s).isEmpty then [] else [(p, s)]
  | .eol, p, s => if s = [] || s = ['\n'] then [(p, s)] else []

/-- First (leftmost, highest-priority) match of the pattern in the input,
returned as `(before, matched, after)`.  The parameter `p` is the character
just before the current scan position. -/
def searchAux (re : RE) : Option Char → List Char → Option (List Char × List Char × List Char)
  | p, [] =>
    match (mrun re p []).head? with
    | some _ => some ([], [], [])
    | none => none
  | p, c :: t =>
    match (mrun re p (c :: t)).head? with
    | some (_, rest) =>
      some ([], (c :: t).take ((c :: t).length - rest.length), rest)
    | none =>
      (searchAux re (some c) t).map fun pr => (c :: pr.1, pr.2.1, pr.2.2)

def searchRE (re : RE) (s : List Char) : Option (List Char × List Char × List Char) :=
  searchAux re none s

def hasMatch (re : RE) (s : List Char) : Bool :=
  (searchRE re s).isSome

def hasMatchStr (re : RE) (s : String) : Bool :=
  hasMatch re s.toList

/-- `re.findall` for patterns without capture groups: non-overlapping
matches, scanning left to right.  All patterns this development feeds into
it only produce non-empty matches, hence the empty-match guard is never
taken; the fuel is bounded by the input length plus one. -/
def findAllAux (re : RE) : Nat → Option Char → List Char → List (List Char)
  | 0, _, _ => []
  | fuel + 1, p, s =>
    match searchAux re p s with
    | none => []
    | some (_, matched, rest) =>
      if matched = [] then []
      else matched :: findAllAux re fuel matched.getLast? rest

def findAll (re : RE) (s : List Char) : List (List Char) :=
  findAllAux re (s.length + 1) none s

/-! Pattern constructors. -/

def chrRE (c : Char) : RE := .cls fun d => d = c

/-- Case-insensitive literal character (`re.I`). -/
def chrCI (c : Char) : RE := .cls fun d => d.toLower = c.toLower

def seqL : List RE → RE
  | [] => .eps
  | [r] => r
  | r :: t => .seq r (seqL t)

def altL : List RE → RE
  | [] => .eps
  | [r] => r
  | r :: t => .alt r (altL t)

def strRE (w : String) : RE := seqL (w.toList.map chrRE)

def strCI (w : String) : RE := seqL (w.toList.map chrCI)

def digitRE : Char → Bool := fun c => c.isDigit

/-- `(?:r){n}` expanded. -/
def repeatRE (r : RE) : Nat → RE
  | 0 => .eps
  | n + 1 => .seq r (repeatRE r n)

/-- Greedy `(?:r){0,n}` expanded: taking another copy is preferred. -/
def optChain (r : RE) : Nat → RE
  | 0 => .eps
  | n + 1 => .opt (.seq r (optChain r n))

/-! ## services/python-ai/app/agent/utils/strings.py -/

def isUpperA : Char → Bool := fun c => c.isUpper

def isLowerA : Char → Bool := fun c => c.isLower

/-- The `WORD_BOUNDARY` pattern
`[A-Z]{2,}(?=[A-Z][a-z]+[0-9]*|\b)|[A-Z]?[a-z]+[0-9]*|[A-Z]+|[0-9]+`. -/
def WORD_BOUNDARY_RE : RE :=
  altL [
    seqL [.rep isUpperA 2 none,
      .look (altL [seqL [.cls isUpperA, .rep isLowerA 1 none, .rep digitRE 0 none], .wb])],
    seqL [.opt (.cls isUpperA), .rep isLowerA 1 none, .rep digitRE 0 none],
    .rep isUpperA 1 none,
    .rep digitRE 1 none]

def capitalizePart : List Char → List Char
  | [] => []
  | c :: t => c.toUpper :: lowerChars t

/-- `to_title_case`: split on runs of underscores and whitespace, capitalize
the first character of each part and lowercase the rest. -/
def to_title_case (value : String) : String :=
  if value = "" then ""
  else
    let parts := splitRuns (fun c => !(c = '_' || isSpaceChar c)) value.toList
    String.intercalate " " (parts.map fun part => String.mk (capitalizePart part))

/-- `to_pascal_case`. -/
def to_pascal_case (value : String) : String :=
  if value = "" then ""
  else String.mk ((to_title_case value).toList.filter fun c => c ≠ ' ')

/-- Helper for the no-word-match branch of `to_snake_case`:
`re.sub(r"\s+", "_", ...)`. -/
def collapseSpacesAux : Bool → List Char → List Char
  | _, [] => []
  | prevSpace, c :: t =>
    if isSpaceChar c then
      (if prevSpace then [] else ['_']) ++ collapseSpacesAux true t
    else c :: collapseSpacesAux false t

/-- `to_snake_case`. -/
def to_snake_case (value : String) : String :=
  if value = "" then ""
  else
    let trimmed := stripChars value.toList
    let ms := findAll WORD_BOUNDARY_RE trimmed
    if ms = [] then String.mk (collapseSpacesAux false (lowerChars trimmed))
    else String.intercalate "_" (ms.map fun m => String.mk (lowerChars m))

/-! ## services/python-ai/app/agent/redactor.py -/

/-- Characters allowed by `[\s-]`. -/
def sepC : Char → Bool := fun c => isSpaceChar c || c = '-'

/-- `[A-Za-z0-9._%+-]+@[A-Za-z0-9.-]+\.[A-Za-z]{2,}`. -/
def emailRE : RE :=
  seqL [
    .rep (fun c => c.isAlpha || c.isDigit || c = '.' || c = '_' || c = '%' || c = '+' || c = '-') 1 none,
    chrRE '@',
    .rep (fun c => c.isAlpha || c.isDigit || c = '.' || c = '-') 1 none,
    chrRE '.',
    .rep (fun c => c.isAlpha) 2 none]

/-- `(?:\+?\d{1,3}[\s-]?)?(?:\(\d{2,3}\)|\d{2,3})[\s-]?\d{3}[\s-]?\d{4}`. -/
def phoneRE : RE :=
  .seq
    (.opt (seqL [.opt (chrRE '+'), .rep digitRE 1 (some 3), .rep sepC 0 (some 1)]))
    (seqL [
      altL [seqL [chrRE '(', .rep digitRE 2 (some 3), chrRE ')'], .rep digitRE 2 (some 3)],
      .rep sepC 0 (some 1),
      .rep digitRE 3 (some 3),
      .rep sepC 0 (some 1),
      .rep digitRE 4 (some 4)])

/-- `\b(?:\d[\s-]*){13,19}\d\b`. -/
def cardRE : RE :=
  seqL [.wb,
    repeatRE (.seq (.cls digitRE) (.rep sepC 0 none)) 13,
    optChain (.seq (.cls digitRE) (.rep sepC 0 none)) 6,
    .cls digitRE, .wb]

/-- `\b\d{1,5}\s+[^\n,]+(?:Street|St\.?|...|Place|Pl\.?)\b` with `re.I`. -/
def addressRE : RE :=
  seqL [.wb,
    .rep digitRE 1 (some 5),
    .rep isSpaceChar 1 none,
    .rep (fun c => !(c = '\n' || c = ',')) 1 none,
    altL [
      strCI "Street", seqL [strCI "St", .opt (chrRE '.')],
      strCI "Avenue", seqL [strCI "Ave", .opt (chrRE '.')],
      strCI "Road", seqL [strCI "Rd", .opt (chrRE '.')],
      strCI "Boulevard", seqL [strCI "Blvd", .opt (chrRE '.')],
      strCI "Lane", seqL [strCI "Ln", .opt (chrRE '.')],
      strCI "Drive", seqL [strCI "Dr", .opt (chrRE '.')],
      strCI "Court", seqL [strCI "Ct", .opt (chrRE '.')],
      strCI "Place", seqL [strCI "Pl", .opt (chrRE '.')]],
    .wb]

structure PatternConfig where
  regex : RE
  maskKey : Nat → List Char
  is_match_valid : Option (List Char → Bool)

def PATTERNS : List PatternConfig :=
  [⟨emailRE, fun i => ("[EMAIL_" ++ Nat.repr i ++ "]").toList, none⟩,
   ⟨phoneRE, fun i => ("[PHONE_" ++ Nat.repr i ++ "]").toList, none⟩,
   ⟨cardRE, fun i => ("[CARD_" ++ Nat.repr i ++ "]").toList,
     some fun m => decide (13 ≤ (m.filter Char.isDigit).length) &&
       decide ((m.filter Char.isDigit).length ≤ 19)⟩,
   ⟨addressRE, fun i => ("[ADDR_" ++ Nat.repr i ++ "]").toList, none⟩]

/-- One `regex.sub(_replacer, masked)` pass: `re.sub` finds the
non-overlapping matches left to right on the input of the pass; a valid
match is replaced by the next placeholder and recorded in the replacement
map, an invalid one is left in place without consuming an index.  All
patterns above only produce non-empty matches, so the guard branch is dead
and a fuel of the input length plus one suffices. -/
def subAllAux (re : RE) (mk : Nat → List Char) (valid : List Char → Bool) :
    Nat → Option Char → List Char → Nat →
      List Char × List (List Char × List Char) × Nat
  | 0, _, s, idx => (s, [], idx)
  | fuel + 1, p, s, idx =>
    match searchAux re p s with
    | none => (s, [], idx)
    | some (pre, matched, rest) =>
      if matched = [] then (s, [], idx)
      else if valid matched then
        let key := mk idx
        let r := subAllAux re mk valid fuel matched.getLast? rest (idx + 1)
        (pre ++ key ++ r.1, (key, matched) :: r.2.1, r.2.2)
      else
        let r := subAllAux re mk valid fuel matched.getLast? rest idx
        (pre ++ matched ++ r.1, r.2.1, r.2.2)

structure RedactionResultM where
  masked : String
  replacementMap : List (String × String)
deriving DecidableEq, Repr

namespace Redactor

/-- `Redactor.mask`: apply the pattern passes in order, the replacement map
accumulating entries in insertion order across passes. -/
def mask (text : String) : RedactionResultM :=
  if text = "" then ⟨text, []⟩
  else
    let r := PATTERNS.foldl
      (fun (acc : List Char × List (List Char × List Char)) pat =>
        let valid := pat.is_match_valid.getD fun _ => true
        let step := subAllAux pat.regex pat.maskKey valid (acc.1.length + 1) none acc.1 0
        (step.1, acc.2 ++ step.2.1))
      (text.toList, [])
    ⟨String.mk r.1, r.2.map fun kv => (String.mk kv.1, String.mk kv.2)⟩

/-- Python `str.replace(key, value)`: replace every non-overlapping
occurrence, scanning left to right and continuing after each inserted
value.  The keys fed in are placeholders, never empty. -/
def replaceAllAux (key val : List Char) : Nat → List Char → List Char
  | 0, s => s
  | fuel + 1, s =>
    match s with
    | [] => []
    | c :: t =>
      if key ≠ [] && startsWithCh key s then
        val ++ replaceAllAux key val fuel (s.drop key.length)
      else c :: replaceAllAux key val fuel t

def replaceAll (s key val : List Char) : List Char :=
  replaceAllAux key val s.length s

/-- `Redactor.unmask`: sequential `str.replace` of every placeholder, in
the insertion order of the replacement map. -/
def unmask (text : String) (mapping : List (String × String)) : String :=
  if text = "" then text
  else String.mk (mapping.foldl
    (fun acc kv => replaceAll acc kv.1.toList kv.2.toList) text.toList)

end Redactor

/-! ## services/python-ai/app/agent/embeddings.py

Floats are replaced by exact rationals.  The square root inside
`l2_normalize` is irrational in general, so call sites take the
normalization function as a parameter `l2n`; the unit-norm property is
stated over the reals in the theorems below. -/

def FALLBACK_DIMENSION : Nat := 384

/-- UTF-8 encoding of one character (`str.encode("utf-8")`; the
`errors="ignore"` mode only matters for surrogates, which `Char` cannot
hold). -/
def utf8EncodeCharM (c : Char) : List Nat :=
  let n := c.toNat
  if n < 0x80 then [n]
  else if n < 0x800 then [0xC0 + n / 0x40, 0x80 + n % 0x40]
  else if n < 0x10000 then
    [0xE0 + n / 0x1000, 0x80 + n / 0x40 % 0x40, 0x80 + n % 0x40]
  else
    [0xF0 + n / 0x40000, 0x80 + n / 0x1000 % 0x40, 0x80 + n / 0x40 % 0x40,
      0x80 + n % 0x40]

def utf8Bytes (s : List Char) : List Nat :=
  s.flatMap utf8EncodeCharM

/-- The accumulation loop of `_fallback_embed` before `l2_normalize`: FNV-1a
style hashing over the bytes (Python integers are unbounded, so there is no
overflow to model, and `hash_value + index * 31` is always non-negative,
making the `abs` of the source the identity). -/
def fallback_accum_go : List Nat → Nat → Nat → List ℚ → List ℚ
  | [], _, _, out => out
  | b :: rest, i, h, out =>
    let h2 := (h ^^^ b) * 16777619
    let idx := (h2 + i * 31) % FALLBACK_DIMENSION
    let contrib : ℚ := (b : ℚ) / 255 * 2 - 1
    fallback_accum_go rest (i + 1) h2 (out.set idx (out.getD idx 0 + contrib))

def fallback_accum (bytes : List Nat) : List ℚ :=
  fallback_accum_go bytes 0 2166136261 (List.replicate FALLBACK_DIMENSION 0)

/-- The raw (pre-normalization) fallback embedding of a text. -/
def fallback_embed_pre (text : List Char) : List ℚ :=
  fallback_accum (utf8Bytes text)

/-- Sum of squares of a rational vector (the square of the L2 norm). -/
def sumSq (v : List ℚ) : ℚ :=
  (v.map fun q => q * q).sum

/-- `embed_text` with no custom embedder configured: the empty text maps to
the zero vector of dimension `FALLBACK_DIMENSION`, every other text to the
`l2_normalize` of the raw fallback embedding. -/
def embed_text_with (l2n : List ℚ → List ℚ) (text : String) : List ℚ :=
  if text = "" then List.replicate FALLBACK_DIMENSION 0
  else l2n (fallback_embed_pre text.toList)

/-! ## services/python-ai/app/agent/memory.py -/

def MAX_CACHED_ROWS : Nat := 512

structure MemoryRow where
  id : String
  kind : String
  text : String
  ts : Int
  embedding : List ℚ
deriving DecidableEq, Repr

structure MemoryRecordM where
  id : String
  kind : String
  text : String
  ts : Int
  embedding : List ℚ
  score : ℚ
deriving DecidableEq, Repr

/-- Descending-timestamp order of `sorted(values, key=ts, reverse=True)`. -/
def rowTsGe (a b : MemoryRow) : Prop := b.ts ≤ a.ts

instance : DecidableRel rowTsGe := fun a b => inferInstanceAs (Decidable (b.ts ≤ a.ts))

instance : IsTotal MemoryRow rowTsGe := ⟨fun a b => le_total b.ts a.ts⟩

instance : IsTrans MemoryRow rowTsGe := ⟨fun _ _ _ h1 h2 => le_trans h2 h1⟩

/-- Descending-score order of `sorted(scores, key=score, reverse=True)`. -/
def recScoreGe (a b : MemoryRecordM) : Prop := b.score ≤ a.score

instance : DecidableRel recScoreGe := fun a b => inferInstanceAs (Decidable (b.score ≤ a.score))

instance : IsTotal MemoryRecordM recScoreGe := ⟨fun a b => le_total b.score a.score⟩

instance : IsTrans MemoryRecordM recScoreGe := ⟨fun _ _ _ h1 h2 => le_trans h2 h1⟩

structure UpsertOptions where
  id : String
  kind : String
  text : String
  ts : Option Int := none
  embedding : Option (List ℚ) := none
deriving Repr

/-- `Memory.upsert`: resolve the timestamp and embedding (a supplied empty
embedding is falsy in Python and falls back to `embed_text`), store or
replace the row by id (an in-place replace keeps the dictionary position,
a new id is appended), then evict down to the `MAX_CACHED_ROWS` rows with
the newest timestamps whenever the store exceeds capacity. -/
def upsert (l2n : List ℚ → List ℚ) (cache : List MemoryRow) (o : UpsertOptions)
    (now : Int) : List MemoryRow :=
  let ts := o.ts.getD now
  let rawEmbedding :=
    match o.embedding with
    | some e => if e = [] then embed_text_with l2n o.text else e
    | none => embed_text_with l2n o.text
  let row : MemoryRow := ⟨o.id, o.kind, o.text, ts, l2n rawEmbedding⟩
  let cache1 :=
    if cache.any fun r => r.id = row.id then
      cache.map fun r => if r.id = row.id then row else r
    else cache ++ [row]
  if MAX_CACHED_ROWS < cache1.length then
    (List.insertionSort rowTsGe cache1).take MAX_CACHED_ROWS
  else cache1

structure RagItem where
  id : String
  kind : String
  score : ℚ
  title : Option String := none
  snippet : String := ""
deriving DecidableEq, Repr

/-- `_map_kinds_to_rag`. -/
def map_kinds_to_rag (kinds : List String) : List String :=
  let normalized := kinds.map lowerStr
  (if ["entry", "journal", "pref"].any (fun k => normalized.contains k) then ["entry"] else []) ++
    (if normalized.contains "goal" then ["goal"] else []) ++
    (if ["schedule", "event"].any (fun k => normalized.contains k) then ["schedule"] else [])

/-- `_rag_search` over the seeded in-memory results. -/
def rag_search (ragResults : List RagItem) (query : String) (limit : Option Nat) :
    List RagItem :=
  if stripStr query = "" then []
  else
    match limit with
    | some l => ragResults.take l
    | none => ragResults

/-- `_cosine_scores`: dot product of the L2-normalized query with each row
embedding over their common length, ranked descending. -/
def cosine_scores (l2n : List ℚ → List ℚ) (query : List ℚ) (rows : List MemoryRow) :
    List MemoryRecordM :=
  let nq := l2n query
  let scores := rows.map fun row =>
    let dot := ((nq.zip row.embedding).map fun p => p.1 * p.2).sum
    MemoryRecordM.mk row.id row.kind row.text row.ts row.embedding dot
  List.insertionSort recScoreGe scores

/-- The local branch of `Memory.search_top_n`. -/
def search_top_n_local (l2n : List ℚ → List ℚ) (cache : List MemoryRow)
    (query : String) (kindsL : List String) (top_k : Nat) : List MemoryRecordM :=
  let qv := embed_text_with l2n query
  let rows := cache.filter fun row => kindsL = [] || kindsL.contains (lowerStr row.kind)
  (cosine_scores l2n qv rows).take top_k

/-- `Memory.search_top_n`: remote scored retrieval when an authenticated
user exists (upserting the returned snippets into the local cache as a side
effect), otherwise local cosine search.  Returns the records and the cache
after side effects. -/
def search_top_n (l2n : List ℚ → List ℚ) (userId : Option String)
    (ragResults : List RagItem) (cache : List MemoryRow) (now : Int)
    (query : String) (kinds : List String) (topK : Nat) :
    List MemoryRecordM × List MemoryRow :=
  let q := stripStr query
  if q = "" then ([], cache)
  else
    let top_k := max 1 (min topK 20)
    let kindsL := kinds.map lowerStr
    match userId with
    | some _ =>
      let rag := rag_search ragResults q (some top_k)
      if rag = [] then (search_top_n_local l2n cache q kindsL top_k, cache)
      else
        let recs := rag.enum.map fun p =>
          MemoryRecordM.mk (p.2.kind ++ ":" ++ p.2.id) p.2.kind p.2.snippet
            (now - (p.1 : Int)) (embed_text_with l2n p.2.snippet) p.2.score
        let cache2 := recs.foldl
          (fun c r =>
            upsert l2n c ⟨r.id, r.kind, r.text, some r.ts, some r.embedding⟩ now) cache
        (recs.take top_k, cache2)
    | none => (search_top_n_local l2n cache q kindsL top_k, cache)

/-! ## A model of the UTC datetimes of the slot filler

Every datetime the slot filler manipulates is timezone-aware UTC; it is
modelled as the integer count of milliseconds since the Unix epoch.  The
civil-date conversions are the standard era-based algorithms. -/

/-- `datetime.weekday()`: Monday is 0.  1970-01-01 (day zero) was a
Thursday. -/
def py_weekday (dt : Int) : Int :=
  (Int.fdiv dt 86400000 + 3).emod 7

/-- Days since the epoch to `(year, month, day)`. -/
def civilFromDays (z0 : Int) : Int × Int × Int :=
  let z := z0 + 719468
  let era := Int.fdiv z 146097
  let doe := z - era * 146097
  let yoe := Int.fdiv (doe - Int.fdiv doe 1460 + Int.fdiv doe 36524 - Int.fdiv doe 146096) 365
  let y := yoe + era * 400
  let doy := doe - (365 * yoe + Int.fdiv yoe 4 - Int.fdiv yoe 100)
  let mp := Int.fdiv (5 * doy + 2) 153
  let d := doy - Int.fdiv (153 * mp + 2) 5 + 1
  let m := mp + (if mp < 10 then 3 else -9)
  (y + (if m ≤ 2 then 1 else 0), m, d)

/-- `(year, month, day)` to days since the epoch. -/
def daysFromCivil (y0 m d : Int) : Int :=
  let y := y0 - (if m ≤ 2 then 1 else 0)
  let era := Int.fdiv y 400
  let yoe := y - era * 400
  let mp := (m + 9).emod 12
  let doy := Int.fdiv (153 * mp + 2) 5 + d - 1
  let doe := yoe * 365 + Int.fdiv yoe 4 - Int.fdiv yoe 100 + doy
  era * 146097 + doe - 719468

def isLeap (y : Int) : Bool :=
  (y.emod 4 = 0 && y.emod 100 ≠ 0) || y.emod 400 = 0

def daysInMonth (y m : Int) : Int :=
  if m = 2 then (if isLeap y then 29 else 28)
  else if m = 4 ∨ m = 6 ∨ m = 9 ∨ m = 11 then 30
  else 31

/-- `datetime(year, month, day, tzinfo=utc)`; the constructor raises
`ValueError` on out-of-range fields. -/
def mkDate (y mo d : Int) : Except String Int :=
  if 1 ≤ y ∧ y ≤ 9999 ∧ 1 ≤ mo ∧ mo ≤ 12 ∧ 1 ≤ d ∧ d ≤ daysInMonth y mo then
    .ok (86400000 * daysFromCivil y mo d)
  else .error "ValueError: invalid date"

/-- `date.replace(hour=h, minute=m, second=0, microsecond=0)`. -/
def dtReplaceTime (dt h m : Int) : Int :=
  Int.fdiv dt 86400000 * 86400000 + h * 3600000 + m * 60000

def yearOf (dt : Int) : Int :=
  (civilFromDays (Int.fdiv dt 86400000)).1

def padNat (width : Nat) (n : Nat) : String :=
  let s := Nat.repr n
  String.mk (List.replicate (width - s.length) '0') ++ s

/-- `_minutes_to_iso`: `isoformat()` of a UTC datetime with `+00:00`
replaced by `Z`.  Model timestamps have millisecond resolution, so the
microsecond field is the millisecond remainder times 1000 and is printed
exactly when non-zero, as `isoformat` does. -/
def minutes_to_iso (dt : Int) : String :=
  let days := Int.fdiv dt 86400000
  let rem := (dt - days * 86400000).toNat
  let c := civilFromDays days
  let msec := rem % 1000
  padNat 4 c.1.toNat ++ "-" ++ padNat 2 c.2.1.toNat ++ "-" ++ padNat 2 c.2.2.toNat ++
    "T" ++ padNat 2 (rem / 3600000) ++ ":" ++ padNat 2 (rem / 60000 % 60) ++ ":" ++
    padNat 2 (rem / 1000 % 60) ++
    (if msec = 0 then "" else "." ++ padNat 6 (msec * 1000)) ++ "Z"

/-! ## services/python-ai/app/agent/slot_filler.py -/

def WEEKDAY_ORDER : List (String × Int) :=
  [("sunday", 0), ("monday", 1), ("tuesday", 2), ("wednesday", 3),
   ("thursday", 4), ("friday", 5), ("saturday", 6)]

def MONTHS : List String :=
  ["january", "february", "march", "april", "may", "june", "july",
   "august", "september", "october", "november", "december"]

/-- `\b(next|this)?\s*(sunday|monday|...)\b` with `re.I`. -/
def weekdayRE : RE :=
  seqL [.wb,
    .opt (altL [strCI "next", strCI "this"]),
    .rep isSpaceChar 0 none,
    altL [strCI "sunday", strCI "monday", strCI "tuesday", strCI "wednesday",
      strCI "thursday", strCI "friday", strCI "saturday"],
    .wb]

def todayRE : RE := seqL [.wb, strCI "today", .wb]

def tomorrowRE : RE := seqL [.wb, strCI "tomorrow", .wb]

def dayAfterTomorrowRE : RE := seqL [.wb, strCI "day after tomorrow", .wb]

def tonightRE : RE := seqL [.wb, strCI "tonight", .wb]

/-- `\b(\d{4})-(\d{2})-(\d{2})\b`. -/
def isoDateRE : RE :=
  seqL [.wb, .rep digitRE 4 (some 4), chrRE '-', .rep digitRE 2 (some 2),
    chrRE '-', .rep digitRE 2 (some 2), .wb]

/-- `\b(\d{1,2})\/(\d{1,2})(?:\/(\d{2,4}))?\b`. -/
def slashDateRE : RE :=
  seqL [.wb, .rep digitRE 1 (some 2), chrRE '/', .rep digitRE 1 (some 2),
    .opt (.seq (chrRE '/') (.rep digitRE 2 (some 4))), .wb]

/-- The month-name date pattern of `_find_explicit_date`, `re.I`. -/
def monthDateRE : RE :=
  seqL [.wb,
    altL [
      .seq (strCI "jan") (.opt (strCI "uary")),
      .seq (strCI "feb") (.opt (strCI "ruary")),
      .seq (strCI "mar") (.opt (strCI "ch")),
      .seq (strCI "apr") (.opt (strCI "il")),
      strCI "may",
      .seq (strCI "jun") (.opt (strCI "e")),
      .seq (strCI "jul") (.opt (strCI "y")),
      .seq (strCI "aug") (.opt (strCI "ust")),
      .seq (strCI "sep") (.opt (strCI "tember")),
      .seq (strCI "oct") (.opt (strCI "ober")),
      .seq (strCI "nov") (.opt (strCI "ember")),
      .seq (strCI "dec") (.opt (strCI "ember"))],
    .rep isSpaceChar 1 none,
    .rep digitRE 1 (some 2),
    .opt (seqL [.opt (chrRE ','), .rep isSpaceChar 0 none, .rep digitRE 4 (some 4)]),
    .wb]

/-- `\b(?:at|@)?\s*(\d{1,2})(?::(\d{2}))?\s*(am|pm)?\b` with `re.I`. -/
def timeApplyRE : RE :=
  seqL [.wb,
    .opt (altL [strCI "at", chrRE '@']),
    .rep isSpaceChar 0 none,
    .rep digitRE 1 (some 2),
    .opt (.seq (chrRE ':') (.rep digitRE 2 (some 2))),
    .rep isSpaceChar 0 none,
    .opt (altL [strCI "am", strCI "pm"]),
    .wb]

/-- `for\s+(\d{1,2})\s*(minutes?|hours?)` with `re.I`. -/
def durationRE : RE :=
  seqL [strCI "for",
    .rep isSpaceChar 1 none,
    .rep digitRE 1 (some 2),
    .rep isSpaceChar 0 none,
    altL [.seq (strCI "minute") (.opt (chrCI 's')), .seq (strCI "hour") (.opt (chrCI 's'))]]

/-- `(?:goal|aim|plan)\s+(?:to|is to)?\s*(.+)$` with `re.I`. -/
def goalTitleRE : RE :=
  seqL [altL [strCI "goal", strCI "aim", strCI "plan"],
    .rep isSpaceChar 1 none,
    .opt (altL [strCI "to", strCI "is to"]),
    .rep isSpaceChar 0 none,
    .rep (fun c => c ≠ '\n') 1 none,
    .eol]

/-- `(?:about|on)\s+([^.!?]+)` with `re.I`. -/
def journalTitleRE : RE :=
  seqL [altL [strCI "about", strCI "on"],
    .rep isSpaceChar 1 none,
    .rep (fun c => !(c = '.' || c = '!' || c = '?')) 1 none]

def digitsVal (l : List Char) : Nat :=
  l.foldl (fun a c => a * 10 + (c.toNat - 48)) 0

/-- `_clamp_value` (the argument is a parsed digit run, hence
non-negative). -/
def clampVal (v maxv : Nat) : Nat := min v maxv

/-- `_find_weekday`.  The two capture groups are recovered by parsing the
matched text, which has the unambiguous shape
`(next|this)? whitespace* weekday-name`: the day name is the unique weekday
suffix of the match and the hint is its `next`/`this` head when present. -/
def find_weekday (text : List Char) (now : Int) : Option Int :=
  match searchRE weekdayRE text with
  | none => none
  | some (_, matched, _) =>
    let ml := lowerChars matched
    let hintNext := startsWithCh "next".toList ml
    let hintThis := startsWithCh "this".toList ml
    match WEEKDAY_ORDER.find? fun p => endsWithCh p.1.toList ml with
    | none => none
    | some (_, wi) =>
      let ti := py_weekday now
      let da0 := (wi - ti + 7).emod 7
      let days_ahead :=
        if da0 = 0 ∧ hintNext then 7
        else if da0 = 0 ∧ hintThis then 0
        else if da0 = 0 then 7
        else da0
      some (now + days_ahead * 86400000)

/-- `_find_relative_day`. -/
def find_relative_day (text : List Char) (now : Int) : Option Int :=
  if hasMatch todayRE text then some now
  else if hasMatch tomorrowRE text then some (now + 86400000)
  else if hasMatch dayAfterTomorrowRE text then some (now + 2 * 86400000)
  else none

/-- Parser for the day/year digits of a month-name date match, reproducing
the backtracking split of `(\d{1,2})(?:,?\s*(\d{4}))?`: after the month
word and whitespace the match carries either a bare 1-2 digit day, a day
followed by a comma or whitespace and a 4-digit year, or day and year glued
together (day preferred as long as the year keeps exactly 4 digits). -/
def parseMonthDayYear (r1 : List Char) : List Char × Option (List Char) :=
  let dr := r1.takeWhile Char.isDigit
  let r2 := r1.drop dr.length
  if r2 = [] then
    if dr.length ≤ 2 then (dr, none)
    else if dr.length = 6 then (dr.take 2, some (dr.drop 2))
    else (dr.take 1, some (dr.drop 1))
  else
    (dr, some (((r2.dropWhile fun c => c = ',' || isSpaceChar c).takeWhile Char.isDigit)))

/-- `_find_explicit_date`.  The month branch looks up the matched month
word with `MONTHS.index`, which raises `ValueError` for an abbreviated
month name such as `jan`; the constructor can also raise on out-of-range
fields.  Failures are returned as `Except.error`. -/
def find_explicit_date (text : List Char) (now : Int) : Except String (Option Int) :=
  match searchRE isoDateRE text with
  | some (_, m, _) =>
    (mkDate (digitsVal (m.take 4)) (digitsVal ((m.drop 5).take 2))
      (digitsVal ((m.drop 8).take 2))).map some
  | none =>
    match searchRE slashDateRE text with
    | some (_, m, _) =>
      let parts := splitRuns Char.isDigit m
      let p1 := parts.getD 0 []
      let p2 := parts.getD 1 []
      let year_val : Int :=
        match parts.get? 2 with
        | some yr => if yr.length = 2 then 2000 + (digitsVal yr : Int) else (digitsVal yr : Int)
        | none => yearOf now
      (mkDate year_val (digitsVal p1) (digitsVal p2)).map some
    | none =>
      match searchRE monthDateRE text with
      | some (_, m, _) =>
        let ml := lowerChars m
        let monthRaw := ml.takeWhile Char.isAlpha
        match MONTHS.indexOf? (String.mk monthRaw) with
        | none => .error "ValueError: month name not in MONTHS list"
        | some idx =>
          let r1 := (ml.drop monthRaw.length).dropWhile isSpaceChar
          let dy := parseMonthDayYear r1
          let year_val : Int :=
            match dy.2 with
            | some yr => (digitsVal yr : Int)
            | none => yearOf now
          (mkDate year_val ((idx : Int) + 1) (digitsVal dy.1)).map some
      | none => .ok none

/-- `_apply_time`.  The groups are recovered by parsing the matched text,
whose shape is `(at|@)? whitespace* h(:mm)? whitespace* (am|pm)?`. -/
def apply_time (text : List Char) (seed : Option Int) (now : Int) :
    Option Int × Bool :=
  match searchRE timeApplyRE text with
  | none => (none, false)
  | some (_, m, _) =>
    let ml := lowerChars m
    let r0 :=
      if startsWithCh "at".toList ml then ml.drop 2
      else if startsWithCh "@".toList ml then ml.drop 1
      else ml
    let r1 := r0.dropWhile isSpaceChar
    let hr := r1.takeWhile Char.isDigit
    let r2 := r1.drop hr.length
    let pr :=
      if startsWithCh ":".toList r2 then
        (((r2.drop 1).takeWhile Char.isDigit), (r2.drop 1).drop 2)
      else ([], r2)
    let r4 := pr.2.dropWhile isSpaceChar
    let hours0 := clampVal (digitsVal hr) 23
    let minutes := clampVal (match pr.1 with
      | [] => 0
      | l => digitsVal l) 59
    let hours : Nat :=
      if r4 = "pm".toList then (if hours0 < 12 then hours0 + 12 else hours0)
      else if r4 = "am".toList then (if hours0 = 12 then 0 else hours0)
      else hours0
    let base := seed.getD now
    (some (dtReplaceTime base (hours : Int) (minutes : Int)), true)

/-- `_ensure_past_is_future`. -/
def ensure_past_is_future (date now : Int) : Int :=
  if date < now then date + 7 * 86400000 else date

def lookupSlot (slots : List (String × String)) (k : String) : Option String :=
  (slots.find? fun p => p.1 = k).map fun p => p.2

/-- Python dictionary assignment `slots[k] = v`: replace in place when the
key exists, append otherwise. -/
def setSlot (slots : List (String × String)) (k v : String) : List (String × String) :=
  if slots.any fun p => p.1 = k then
    slots.map fun p => if p.1 = k then (k, v) else p
  else slots ++ [(k, v)]

structure RoutedIntentM where
  label : String
  rawLabel : String
  confidence : ℚ
  secondBest : Option String := none
  secondConfidence : Option ℚ := none
  slots : List (String × String) := []
  topK : List (String × ℚ) := []
  matchedTokens : List (String × List String) := []
  modelVersion : Option String := none
  tokens : Option (List String) := none
deriving DecidableEq, Repr

/-- The `(.+)`-style tail of a title match after greedy whitespace, as the
backtracking engine assigns it: everything after the maximal whitespace run
when that is non-empty, otherwise the last whitespace character. -/
def chooseTail (r : List Char) : List Char :=
  let t := r.dropWhile isSpaceChar
  if t ≠ [] then t else r.drop (r.length - 1)

/-- Capture group 1 of the goal-title pattern, recovered from the matched
text: strip the keyword (`goal`, `aim` or `plan`), the mandatory
whitespace, then the optional `to` / `is to` (alternatives in source
order, only taken when a non-empty tail remains). -/
def goalTitleGroup (m : List Char) : List Char :=
  let ml := lowerChars m
  let kwLen :=
    if startsWithCh "goal".toList ml then 4
    else if startsWithCh "aim".toList ml then 3
    else 4
  let afterKW := m.drop kwLen
  let rest := afterKW.dropWhile isSpaceChar
  let restL := lowerChars rest
  if startsWithCh "to".toList restL ∧ rest.drop 2 ≠ [] then chooseTail (rest.drop 2)
  else if startsWithCh "is to".toList restL ∧ rest.drop 5 ≠ [] then chooseTail (rest.drop 5)
  else chooseTail rest

/-- Capture group 1 of the journal-title pattern (`about` / `on` keyword). -/
def journalTitleGroup (m : List Char) : List Char :=
  let ml := lowerChars m
  let kwLen := if startsWithCh "about".toList ml then 5 else 2
  chooseTail (m.drop kwLen)

/-- `_derive_slots`.  The error case propagates the Python `ValueError`
that `MONTHS.index` or the `datetime` constructor can raise inside
`_find_explicit_date`. -/
def derive_slots (text : String) (base_intent : RoutedIntentM) (now : Int) :
    Except String (List (String × String)) := do
  let tl := text.toList
  let result0 := base_intent.slots
  let normalized_label :=
    lowerStr (if base_intent.rawLabel ≠ "" then base_intent.rawLabel else base_intent.label)
  let weekday := find_weekday tl now
  let relative := find_relative_day tl now
  let explicit ← find_explicit_date tl now
  let candidate0 :=
    match explicit with
    | some d => some d
    | none =>
      match relative with
      | some d => some d
      | none => weekday
  let candidate1 :=
    if candidate0 = none ∧ hasMatch tonightRE tl then some (dtReplaceTime now 20 0)
    else candidate0
  let ta := apply_time tl (some (candidate1.getD now)) now
  let candidate2 :=
    match ta.1 with
    | some d => some d
    | none => candidate1
  let r1 :=
    match candidate2 with
    | none => result0
    | some cd =>
      let adjusted :=
        if containsStr "schedule" (lowerStr base_intent.label) then
          ensure_past_is_future cd now
        else cd
      let iso := minutes_to_iso adjusted
      if containsStr "schedule" normalized_label then
        let r := setSlot result0 "start" iso
        if !ta.2 then setSlot r "end" (minutes_to_iso (adjusted + 3600000)) else r
      else if containsStr "goal" normalized_label then
        let date_part := (iso.splitOn "T").headD ""
        if date_part ≠ "" then setSlot result0 "due" date_part else result0
      else if containsStr "journal" normalized_label then setSlot result0 "ts" iso
      else result0
  let r2 :=
    match searchRE durationRE tl with
    | none => r1
    | some (_, m, _) =>
      let ml := lowerChars m
      let afterFor := (ml.drop 3).dropWhile isSpaceChar
      let qty := digitsVal (afterFor.takeWhile Char.isDigit)
      let unitPart := (afterFor.dropWhile Char.isDigit).dropWhile isSpaceChar
      let unit := if startsWithCh "hour".toList unitPart then 60 else 1
      setSlot r1 "duration_minutes" (Nat.repr (qty * unit))
  let r3 :=
    if lookupSlot r2 "title" = none ∧ containsStr "goal" normalized_label then
      match searchRE goalTitleRE tl with
      | none => r2
      | some (_, m, _) =>
        let g := goalTitleGroup m
        if g ≠ [] then setSlot r2 "title" (to_title_case (String.mk (stripChars g)))
        else r2
    else r2
  let r4 :=
    if lookupSlot r3 "title" = none ∧ containsStr "journal" normalized_label then
      match searchRE journalTitleRE tl with
      | none => r3
      | some (_, m, _) =>
        let g := journalTitleGroup m
        if g ≠ [] then setSlot r3 "title" (to_title_case (String.mk (stripChars g)))
        else r3
    else r3
  return r4

/-- `fill`. -/
def fillSlots (text : String) (intent : RoutedIntentM) (now : Int) :
    Except String RoutedIntentM :=
  (derive_slots text intent now).map fun slots => { intent with slots := slots }

/-! ## services/python-ai/app/agent/intent_definitions.py -/

structure IntentDefinition where
  id : String
  label : String
  subsystem : String
  entryType : Option String := none
  allowedInEntryChat : Bool
deriving DecidableEq, Repr

def intent_definitions : List IntentDefinition :=
  [⟨"conversational", "Conversational", "entries", some "journal", true⟩,
   ⟨"entry_create", "Entry Create", "entries", some "journal", false⟩,
   ⟨"entry_discuss", "Entry Discuss", "entries", some "journal", true⟩,
   ⟨"entry_append", "Entry Append", "entries", some "journal", true⟩,
   ⟨"command", "Command", "user_config", none, false⟩,
   ⟨"search_query", "Search Query", "knowledge", none, true⟩]

def DEFAULT_INTENT : IntentDefinition :=
  ⟨"conversational", "Conversational", "entries", some "journal", true⟩

/-- `get_intent_definition`.  The Python function always returns a
non-empty (hence truthy) dictionary, falling back to a copy of
`DEFAULT_INTENT` with id `unknown` and the trimmed input label. -/
def get_intent_definition (label : String) : IntentDefinition :=
  let trimmed := stripStr label
  let normalized := lowerStr trimmed
  let safe_label := if normalized = "" ∨ normalized = "label" then "journal entry" else normalized
  (intent_definitions.find? fun d => lowerStr d.label = safe_label).getD
    { DEFAULT_INTENT with
        id := "unknown"
        label := if trimmed = "" then DEFAULT_INTENT.label else trimmed }

/-! ## services/python-ai/app/agent/intent_routing.py -/

def ROUTE_AT_THRESHOLD : ℚ := 0.75
def CLARIFY_LOWER_THRESHOLD : ℚ := 0.45
def SECONDARY_INTENT_THRESHOLD : ℚ := 0.6

/-- `_clamp` (the input is always numeric in the typed model). -/
def clamp01 (v : ℚ) : ℚ :=
  if v < 0 then 0 else if 1 < v then 1 else v

/-- Descending-confidence order of
`sorted(normalized, key=confidence, reverse=True)`. -/
def confGe (a b : String × ℚ) : Prop := b.2 ≤ a.2

instance : DecidableRel confGe := fun a b => inferInstanceAs (Decidable (b.2 ≤ a.2))

instance : IsTotal (String × ℚ) confGe := ⟨fun a b => le_total b.2 a.2⟩

instance : IsTrans (String × ℚ) confGe := ⟨fun _ _ _ h1 h2 => le_trans h2 h1⟩

/-- `_normalize_top_k`: clamp confidences, de-duplicate by label keeping
the first occurrence, sort descending by confidence (a stable sort, as in
Python). -/
def normalize_top_k (l : List (String × ℚ)) : List (String × ℚ) :=
  let deduped := l.foldl
    (fun acc item =>
      if acc.any fun p => p.1 = item.1 then acc
      else acc ++ [(item.1, clamp01 item.2)]) []
  List.insertionSort confGe deduped

structure NativeIntent where
  label : String
  confidence : ℚ
  topK : List (String × ℚ) := []
  matchedTokens : List (String × List String) := []
  modelVersion : Option String := none
  tokens : Option (List String) := none
deriving DecidableEq, Repr

/-- Python `a or b or []` over optional token lists (an empty list is
falsy). -/
def firstNonEmptyTokens (a b : Option (List String)) : List String :=
  match a with
  | some l => if l = [] then (match b with
      | some l2 => l2
      | none => []) else l
  | none =>
    match b with
    | some l2 => l2
    | none => []

/-- `build_routed_intent`.  `get_intent_definition` always returns a truthy
dictionary, so the `or fallback_definition` branches of the source are
never taken and every label is resolved through the definition table. -/
def build_routed_intent (native : NativeIntent) (slots : List (String × String)) :
    RoutedIntentM :=
  let top_k := normalize_top_k native.topK
  let primary := top_k.headD (native.label, clamp01 native.confidence)
  let second := top_k.find? fun c => c.1 ≠ primary.1
  let primary_definition := get_intent_definition primary.1
  let resolved_top_k := if top_k = [] then [primary] else top_k
  let matched_tokens := resolved_top_k.map fun c =>
    let defn := get_intent_definition c.1
    let t1 := (native.matchedTokens.find? fun p => p.1 = defn.label).map fun p => p.2
    let t2 := (native.matchedTokens.find? fun p => p.1 = c.1).map fun p => p.2
    (to_pascal_case defn.label, firstNonEmptyTokens t1 t2)
  { label := to_pascal_case primary_definition.label
    rawLabel := primary_definition.label
    confidence := clamp01 primary.2
    secondBest := second.map fun s => to_pascal_case (get_intent_definition s.1).label
    secondConfidence := second.map fun s => clamp01 s.2
    slots := slots
    topK := resolved_top_k
    matchedTokens := matched_tokens
    modelVersion := native.modelVersion
    tokens := native.tokens }

structure RouteDecisionM where
  kind : String
  primary : Option String := none
  maybeSecondary : Option String := none
  question : Option String := none
deriving DecidableEq, Repr

def underscores_to_spaces (s : String) : String :=
  String.mk (s.toList.map fun c => if c = '_' then ' ' else c)

/-- `route_intent`. -/
def route_intent (intent : RoutedIntentM) : RouteDecisionM :=
  if ROUTE_AT_THRESHOLD ≤ intent.confidence then
    { kind := "commit"
      primary := some intent.label
      maybeSecondary :=
        if SECONDARY_INTENT_THRESHOLD ≤ intent.secondConfidence.getD 0 then
          intent.secondBest
        else none }
  else if CLARIFY_LOWER_THRESHOLD ≤ intent.confidence then
    { kind := "clarify"
      question := some ("Did you want to " ++
        underscores_to_spaces (to_snake_case intent.label) ++ "?") }
  else { kind := "fallback" }

/-! ## services/python-ai/app/agent/riflett_intent_classifier.py -/

def SEARCH_PHRASES : List String :=
  ["find", "show me", "search for", "when did i", "where did i",
   "what did i write", "look up", "list"]

def ADDITIVE_PHRASES : List String :=
  ["also", "update", "another", "forgot", "in addition", "plus", "adding",
   "one more thing"]

def SAVE_PHRASES : List String :=
  ["save", "log", "capture", "remember", "write this down", "note that",
   "journal", "record"]

def TEMPORAL_MARKERS : List String :=
  ["today", "tonight", "this morning", "this afternoon", "this evening",
   "yesterday", "earlier", "just now", "right now", "tomorrow", "monday",
   "tuesday", "wednesday", "thursday", "friday", "saturday", "sunday"]

def ACTION_VERBS : List String :=
  ["finished", "completed", "did", "ran", "talked", "spoke", "met",
   "decided", "started", "launched", "sent", "emailed", "called", "worked",
   "wrote", "built", "shipped"]

/-- `PRONOUN_ANCHORS`, `re.I`. -/
def PRONOUN_ANCHORS_RE : RE :=
  seqL [.wb,
    altL [strCI "it", strCI "this", strCI "that", strCI "the goal",
      strCI "the entry", strCI "that goal", strCI "this entry",
      strCI "that plan", strCI "the plan", strCI "that project",
      strCI "this project"],
    .wb]

/-- `TIME_REGEX`: `\b(\d{1,2}(:\d{2})?\s?(am|pm))\b`, `re.I`. -/
def TIME_REGEX_RE : RE :=
  seqL [.wb,
    .rep digitRE 1 (some 2),
    .opt (.seq (chrRE ':') (.rep digitRE 2 (some 2))),
    .opt (.cls isSpaceChar),
    altL [strCI "am", strCI "pm"],
    .wb]

def DUPLICATE_THRESHOLD : ℚ := 0.85
def DUPLICATE_MIN_PREFIX_LEN : Nat := 20

def contains_phrase (text : String) (phrases : List String) : Bool :=
  phrases.any fun p => containsStr p text

def has_temporal_marker (text : String) : Bool :=
  contains_phrase text TEMPORAL_MARKERS || hasMatchStr TIME_REGEX_RE text

def has_save_language (text : String) : Bool :=
  contains_phrase text SAVE_PHRASES

def has_additive_language (text : String) : Bool :=
  contains_phrase text ADDITIVE_PHRASES

def has_action_language (text : String) : Bool :=
  ACTION_VERBS.any fun v => containsStr v text

def is_search_query (text : String) : Bool :=
  contains_phrase text SEARCH_PHRASES

structure DuplicateMeta where
  id : String
  score : ℚ
  text : String
  kind : String
deriving DecidableEq, Repr

structure Classification where
  label : String
  confidence : ℚ
  reasons : List String
  targetEntryId : Option String := none
  targetEntryType : Option String := none
  duplicateMatch : Option DuplicateMeta := none
  topCandidates : List (String × ℚ)
deriving DecidableEq, Repr

/-- `_pick_duplicate`. -/
def pick_duplicate (records : List MemoryRecordM) : Option MemoryRecordM :=
  records.find? fun r => DUPLICATE_THRESHOLD ≤ r.score

/-- `_map_kind_to_entry_type`. -/
def map_kind_to_entry_type (kind : String) : Option String :=
  if kind = "" then none
  else
    let normalized := lowerStr kind
    if containsStr "goal" normalized then some "goal"
    else if containsStr "event" normalized || containsStr "schedule" normalized then
      some "schedule"
    else if containsStr "entry" normalized || containsStr "journal" normalized then
      some "journal"
    else none

/-- The shared conversational fall-through return of the classifier
(reached when no earlier rule fires; the rule-9 block falls through to it
when its guards fail). -/
def classify_fallthrough (reasons0 : List String) (duplicate_meta : Option DuplicateMeta)
    (context_snapshot : Option WindowSnap) (is_question : Bool) : Classification :=
  let conversational_confidence : ℚ := if is_question then 0.9 else 0.82
  { label := "conversational", confidence := conversational_confidence
    reasons := reasons0 ++
      (if is_question then ["Question format leaning conversational"]
       else ["Defaulting to reflective conversational mode"])
    targetEntryId :=
      match context_snapshot with
      | some snap => if snap.isActive then some snap.entryId else none
      | none => none
    targetEntryType := context_snapshot.map fun s => s.entryType
    duplicateMatch := duplicate_meta
    topCandidates := [("conversational", conversational_confidence),
      ("search_query", if is_question then 0.58 else 0.4), ("entry_create", 0.35)] }

/-- The rule-9 block of the classifier (duplicate with a sufficiently long
text whose head appears in a recent message) together with the
conversational fall-through it returns into when its guards fail. -/
def classify_tail (reasons0 : List String) (duplicate_meta : Option DuplicateMeta)
    (context_snapshot : Option WindowSnap) (is_question : Bool)
    (recent : List RecentMessage) : Classification :=
  match duplicate_meta with
  | some d =>
    if DUPLICATE_MIN_PREFIX_LEN ≤ d.text.length ∧
        ((lowerChars (d.text.toList.take DUPLICATE_MIN_PREFIX_LEN)) |> fun dup_head =>
          recent.any fun msg => containsSub dup_head (lowerChars msg.text)) then
      { label := "entry_append", confidence := 0.8
        reasons := reasons0 ++
          ["Recent message references similar content; favour append"]
        targetEntryId := some d.id
        targetEntryType := map_kind_to_entry_type d.kind
        duplicateMatch := duplicate_meta
        topCandidates := [("entry_append", 0.8), ("entry_discuss", 0.7),
          ("conversational", 0.65)] }
    else classify_fallthrough reasons0 duplicate_meta context_snapshot is_question
  | none => classify_fallthrough reasons0 duplicate_meta context_snapshot is_question

/-- `classify_riflett_intent`.  The module-level `window_snapshot()` and
`recent_messages()` reads are passed in as parameters. -/
def classify_riflett_intent (text : String) (context_records : List MemoryRecordM)
    (context_snapshot : Option WindowSnap) (recent_msgs : List RecentMessage) :
    Classification :=
  let trimmed := stripStr text
  let lower := lowerStr trimmed
  let recent := recentOf recent_msgs
  if trimmed = "" then
    { label := "conversational", confidence := 0.6
      reasons := ["Empty message defaults to conversational"]
      topCandidates := [("conversational", 0.6)] }
  else if startsWithCh ['/'] (trimmed.toList.dropWhile isSpaceChar) then
    { label := "command", confidence := 0.99
      reasons := ["Slash-prefixed command detected"]
      topCandidates := [("command", 0.99)] }
  else if is_search_query lower then
    let confidence : ℚ := if 24 < lower.length then 0.94 else 0.9
    { label := "search_query", confidence := confidence
      reasons := ["Search verb detected"]
      topCandidates := [("search_query", confidence), ("conversational", 0.7)] }
  else
    let duplicate := pick_duplicate context_records
    let duplicate_meta := duplicate.map fun d => DuplicateMeta.mk d.id d.score d.text d.kind
    let has_additive := has_additive_language lower
    let in_window :=
      match context_snapshot with
      | some snap => snap.isActive
      | none => false
    let has_pronoun_anchor := hasMatchStr PRONOUN_ANCHORS_RE trimmed
    if duplicate_meta.isSome && has_additive then
      { label := "entry_append", confidence := 0.91
        reasons := ["High-similarity memory match with additive language"]
        targetEntryId := duplicate_meta.map fun d => d.id
        targetEntryType := (duplicate_meta.map fun d => map_kind_to_entry_type d.kind).join
        duplicateMatch := duplicate_meta
        topCandidates := [("entry_append", 0.91), ("entry_discuss", 0.8), ("entry_create", 0.6)] }
    else if in_window && has_pronoun_anchor then
      { label := "entry_discuss", confidence := 0.96
        reasons := ["Within entry context window with pronoun reference"]
        targetEntryId := context_snapshot.map fun s => s.entryId
        targetEntryType := context_snapshot.map fun s => s.entryType
        duplicateMatch := duplicate_meta
        topCandidates := [("entry_discuss", 0.96),
          ("entry_append", if has_additive then 0.82 else 0.7), ("entry_create", 0.6)] }
    else
      let reasons0 : List String :=
        if duplicate_meta.isSome && !has_additive then
          ["High-similarity memory match without clear additive cue"]
        else []
      let has_save := has_save_language lower
      let has_temporal := has_temporal_marker lower
      let has_action := has_action_language lower
      let is_question := containsStr "?" trimmed
      let word_count := (splitRuns (fun c => !isSpaceChar c) trimmed.toList).length
      if !is_question && (has_save || (has_temporal && has_action) || decide (25 < word_count)) then
        let create_confidence : ℚ :=
          min (0.86 + (if has_save then 0.08 else 0) + (if has_temporal then 0.03 else 0) +
            (if 60 < word_count then 0.03 else 0)) 0.97
        { label := "entry_create", confidence := create_confidence
          reasons := reasons0 ++ ["Declarative content suitable for structured capture"] ++
            (if has_save then ["Explicit save/log intent detected"] else []) ++
            (if has_temporal then ["Temporal marker detected"] else []) ++
            (if has_action then ["Concrete action verb detected"] else [])
          targetEntryId := none
          duplicateMatch := duplicate_meta
          topCandidates := [("entry_create", create_confidence),
            ("entry_append", if duplicate_meta.isSome then 0.78 else 0.62),
            ("conversational", 0.6)] }
      else if has_additive && duplicate_meta.isSome then
        { label := "entry_append", confidence := 0.88
          reasons := reasons0 ++ ["Additive phrasing referencing prior context"]
          targetEntryId := duplicate_meta.map fun d => d.id
          targetEntryType := (duplicate_meta.map fun d => map_kind_to_entry_type d.kind).join
          duplicateMatch := duplicate_meta
          topCandidates := [("entry_append", 0.88), ("entry_discuss", 0.72), ("conversational", 0.65)] }
      else if in_window && !is_question then
        { label := "entry_discuss", confidence := 0.78
          reasons := reasons0 ++ ["Context window active; defaulting follow-up to discuss"]
          targetEntryId := context_snapshot.map fun s => s.entryId
          targetEntryType := context_snapshot.map fun s => s.entryType
          duplicateMatch := duplicate_meta
          topCandidates := [("entry_discuss", 0.78), ("entry_create", 0.6), ("conversational", 0.58)] }
      else
        classify_tail reasons0 duplicate_meta context_snapshot is_question recent

/-- `to_native_label`. -/
def to_native_label (label : String) : String :=
  to_title_case (underscores_to_spaces label)

/-! ## services/python-ai/app/agent/pipeline.py -/

/-- The operations of the source that are irrational over the rationals,
passed in as explicit collaborator functions: `l2_normalize` (a square
root), `math.sqrt` and the logistic built on `math.exp`.  No claim below
depends on their values. -/
structure RealFns where
  l2n : List ℚ → List ℚ
  sqrtQ : ℚ → ℚ
  logistic : ℚ → ℚ

def priority_weight_by_kind : List (String × ℚ) :=
  [("goal", 1), ("schedule", 0.75), ("entry", 0.55), ("event", 0.45), ("pref", 0.35)]

def relationship_weight_by_kind : List (String × ℚ) :=
  [("goal", 0.85), ("schedule", 0.7), ("entry", 0.5), ("event", 0.4), ("pref", 0.35)]

def weightFor (table : List (String × ℚ)) (kind : String) : ℚ :=
  ((table.find? fun p => p.1 = kind).map fun p => p.2).getD 0.4

/-- Python `round(x, 3)`: round half to even at three decimals. -/
def roundHalfEven (x : ℚ) : Int :=
  let f : Int := ⌊x⌋
  let frac := x - (f : ℚ)
  if frac < 1 / 2 then f
  else if 1 / 2 < frac then f + 1
  else if f.emod 2 = 0 then f else f + 1

def round3 (x : ℚ) : ℚ :=
  (roundHalfEven (x * 1000) : ℚ) / 1000

structure ScoringBreakdown where
  recency : ℚ
  priority : ℚ
  semantic : ℚ
  affect : ℚ
  relationship : ℚ
  timeOfDay : ℚ
  coaching : ℚ
deriving DecidableEq, Repr

structure ScoredMemoryRecord where
  id : String
  kind : String
  text : String
  ts : Int
  embedding : List ℚ
  score : ℚ
  compositeScore : ℚ
  scoring : ScoringBreakdown
deriving DecidableEq, Repr

/-- Descending-composite order of the final stable sort. -/
def compGe (a b : ScoredMemoryRecord) : Prop := b.compositeScore ≤ a.compositeScore

instance : DecidableRel compGe :=
  fun a b => inferInstanceAs (Decidable (b.compositeScore ≤ a.compositeScore))

instance : IsTotal ScoredMemoryRecord compGe :=
  ⟨fun a b => le_total b.compositeScore a.compositeScore⟩

instance : IsTrans ScoredMemoryRecord compGe := ⟨fun _ _ _ h1 h2 => le_trans h2 h1⟩

structure ScoreOptions where
  userTimeZone : Option String := none
  coachingSuggestionType : Option String := none
deriving Repr

/-- `score_context_records`.  `nowHour` stands for the wall-clock UTC hour
read inside the time-of-day branch. -/
def score_context_records (fns : RealFns) (records : List MemoryRecordM)
    (options : Option ScoreOptions) (nowHour : Int) : List ScoredMemoryRecord :=
  if records = [] then []
  else
    let n : ℚ := (records.length : ℚ)
    let mean : ℚ := ((records.map fun r => (r.ts : ℚ)).sum) / n
    let variance : ℚ := ((records.map fun r => ((r.ts : ℚ) - mean) ^ 2).sum) / n
    let std : ℚ :=
      let s := fns.sqrtQ variance
      if s = 0 then 1 else s
    let scored := records.map fun record =>
      let recency_score := fns.logistic (((record.ts : ℚ) - mean) / std)
      let priority := weightFor priority_weight_by_kind record.kind
      let semantic := clamp01 ((record.score + 1) / 2)
      let affect : ℚ := 0.5
      let relationship := weightFor relationship_weight_by_kind record.kind
      let time_of_day_score : ℚ :=
        match options with
        | some o =>
          if o.userTimeZone.isSome then
            let record_hour := (Int.fdiv record.ts 3600000).emod 24
            let hour_diff :=
              min (record_hour - nowHour).natAbs (24 - (record_hour - nowHour).natAbs)
            max 0 (1 - (hour_diff : ℚ) / 12)
          else 0.5
        | none => 0.5
      let coaching_score : ℚ :=
        match options with
        | some o =>
          match o.coachingSuggestionType with
          | some s =>
            if s = "goal_check" then (if record.kind = "goal" then 1 else 0.35)
            else if s = "reflection" then (if record.kind = "entry" then 1 else 0.35)
            else if s ≠ "" then 0.6
            else 0.5
          | none => 0.5
        | none => 0.5
      let normalized_time := clamp01 time_of_day_score
      let normalized_coaching := clamp01 coaching_score
      let composite :=
        0.3 * recency_score + 0.25 * priority + 0.15 * semantic + 0.1 * affect +
          0.1 * relationship + 0.05 * normalized_time + 0.05 * normalized_coaching
      ScoredMemoryRecord.mk record.id record.kind record.text record.ts
        record.embedding record.score composite
        ⟨round3 recency_score, round3 priority, round3 semantic, round3 affect,
          round3 relationship, round3 normalized_time, round3 normalized_coaching⟩
    List.insertionSort compGe scored

structure UserConfigM where
  user_settings : Option String := none
  persona : Option String := none
  cadence : String := "none"
  tone : String := "neutral"
  spiritual_on : Bool := false
  bluntness : Int := 5
  privacy_gates : List (String × Bool) := []
  crisis_rules : List (String × String) := []
  resolved_at : String
deriving DecidableEq, Repr

/-- `_ensure_user_config(None)` with the cold-start in-memory store: the
snapshot is the default runtime (no settings, no persona), which always
needs a refresh, and the stubbed remote load returns that same cached
default. -/
def default_runtime_config (nowIso : String) : UserConfigM :=
  { resolved_at := nowIso }

structure ClassificationMeta where
  id : String
  label : String
  confidence : ℚ
  reasons : List String
  targetEntryId : Option String
  targetEntryType : Option String
  duplicateMatch : Option DuplicateMeta
  topCandidates : List (String × ℚ)
deriving DecidableEq, Repr

/-- Goal-context items flow through the pipeline untouched, so they are
modelled as opaque strings. -/
structure EnrichedPayloadM where
  userText : String
  intent : RoutedIntentM
  contextSnippets : List String
  userConfig : UserConfigM
  classification : ClassificationMeta
  goalContext : Option (List String) := none
deriving DecidableEq, Repr

def GOAL_KEYWORDS : List String :=
  ["goal", "goals", "milestone", "milestones", "project", "habit", "plan"]

/-- `_should_load_goal_context`. -/
def should_load_goal_context (text : String) (routed_intent : RoutedIntentM)
    (classification : Classification) : Bool :=
  let normalized := lowerStr text
  (GOAL_KEYWORDS.any fun k => containsStr k normalized) ||
    containsStr "goal" (lowerStr routed_intent.label) ||
    (match classification.duplicateMatch with
     | some d => containsStr "goal" (lowerStr d.kind)
     | none => false) ||
    lowerStr (classification.targetEntryType.getD "") = "goal"

structure AgentState where
  userId : Option String := none
  ragResults : List RagItem := []
  memoryCache : List MemoryRow := []
  windowState : Option WindowState := none
  recentMessages : List RecentMessage := []
  goalContextSeed : List String := []
deriving Repr

structure HandleOptions where
  userTimeZone : Option String := none
  coachingSuggestionType : Option String := none
  topK : Option Nat := none
  kindsOverride : Option (List String) := none
deriving Repr

structure HandleResult where
  decision : RouteDecisionM
  routedIntent : RoutedIntentM
  nativeIntent : NativeIntent
  payload : EnrichedPayloadM
  redaction : RedactionResultM
  contextRecords : List ScoredMemoryRecord
  traceId : Option String
deriving DecidableEq, Repr

/-- `handle_utterance` with the default collaborator state baked into
`state`: the seeded rag results, the in-memory row cache, the context
window globals and the goal-context seed.  `now` is the wall clock in
milliseconds, `nowHour` its UTC hour and `freshId` the nanoid the
telemetry sink assigns to the trace (the best-effort telemetry write is
modelled by returning that id).  The empty-utterance guard is the only
`raise` on this path; the `ValueError` the slot filler can raise inside
`_find_explicit_date` propagates through `Except`. -/
def handle_utterance (fns : RealFns) (state : AgentState) (now nowHour : Int)
    (freshId : String) (text : String) (options : HandleOptions) :
    Except String HandleResult :=
  let trimmed := stripStr text
  if trimmed = "" then .error "Utterance text is empty"
  else do
    let search_kinds := options.kindsOverride.getD ["entry", "goal", "event", "pref"]
    let sr := search_top_n fns.l2n state.userId state.ragResults state.memoryCache now
      trimmed search_kinds (options.topK.getD 5)
    let context_records := sr.1
    let context_options : Option ScoreOptions :=
      if options.userTimeZone.isSome || options.coachingSuggestionType.isSome then
        some ⟨options.userTimeZone, options.coachingSuggestionType⟩
      else none
    let scored := score_context_records fns context_records context_options nowHour
    let classification := classify_riflett_intent trimmed
      (scored.map fun r => MemoryRecordM.mk r.id r.kind r.text r.ts r.embedding r.score)
      (snapshot state.windowState) state.recentMessages
    let native : NativeIntent :=
      { label := to_native_label classification.label
        confidence := classification.confidence
        topK := classification.topCandidates.map fun c => (to_native_label c.1, c.2)
        matchedTokens := []
        modelVersion := some "riflett-heuristic-2025-11-07"
        tokens := some [] }
    let base_routed := build_routed_intent native []
    let with_slots ← fillSlots trimmed base_routed now
    let redaction := Redactor.mask trimmed
    let user_config := default_runtime_config (minutes_to_iso now)
    let goal_context : Option (List String) :=
      if should_load_goal_context trimmed with_slots classification then
        some (state.goalContextSeed.take 5)
      else none
    let payload : EnrichedPayloadM :=
      { userText := redaction.masked
        intent := with_slots
        contextSnippets := scored.map fun r => r.text
        userConfig := user_config
        classification :=
          { id := classification.label
            label := to_native_label classification.label
            confidence := classification.confidence
            reasons := classification.reasons
            targetEntryId := classification.targetEntryId
            targetEntryType := classification.targetEntryType
            duplicateMatch := classification.duplicateMatch
            topCandidates := classification.topCandidates.map fun c => (to_native_label c.1, c.2) }
        goalContext := goal_context }
    let decision := route_intent with_slots
    return ⟨decision, with_slots, native, payload, redaction, scored, some freshId⟩

/-! ## Claim theorems -/

/-- C8: after `register_entry("e1", "journal")` the snapshot is active with
decay score 1; after four consecutive `advance_turn(False)` calls the decay
score has fallen to `0.6 ^ 4 = 0.1296 < 0.2`, so the snapshot is `None`.
Stated for every registration and turn clock value. -/
theorem C8_window_decay : ∀ (tReg tNow : Int),
    snapshot (register_entry "e1" "journal" tReg) =
      some ⟨"e1", "journal", tReg, 1, true⟩ ∧
    snapshot (advance_turn (advance_turn (advance_turn (advance_turn
      (register_entry "e1" "journal" tReg) false tNow) false tNow) false tNow) false tNow) =
      none := by
  intro tReg tNow
  constructor
  · with_unfolding_all rfl
  · norm_num [advance_turn, apply_decay, register_entry, snapshot,
      DECAY_FACTOR, MIN_ACTIVE_SCORE]

/-- C6: classifying `"/remind me"` yields label `command` with confidence
`0.99` and classifying `""` yields `conversational` with confidence `0.6`,
for every memory-record list, window snapshot and recent-message ring. -/
theorem C6_classifier_precedence :
    ∀ (records : List MemoryRecordM) (snap : Option WindowSnap)
      (recents : List RecentMessage),
      ((classify_riflett_intent "/remind me" records snap recents).label = "command" ∧
        (classify_riflett_intent "/remind me" records snap recents).confidence = 0.99) ∧
      (classify_riflett_intent "" records snap recents).label = "conversational" ∧
      (classify_riflett_intent "" records snap recents).confidence = 0.6 := by
  intro records snap recents
  refine ⟨⟨?_, ?_⟩, ?_, ?_⟩ <;> with_unfolding_all rfl

/-- C7: routing thresholds.  A confidence of at least `0.75` commits,
carrying the secondary intent exactly when its confidence is at least
`0.6`; a confidence in `[0.45, 0.75)` clarifies with a yes/no question
derived from the label; anything below `0.45` falls back.  In particular
confidence `0.80` commits, `0.50` clarifies and `0.10` falls back. -/
theorem C7_route_thresholds :
    ∀ (intent : RoutedIntentM),
      (ROUTE_AT_THRESHOLD ≤ intent.confidence →
        route_intent intent =
          { kind := "commit", primary := some intent.label,
            maybeSecondary :=
              if SECONDARY_INTENT_THRESHOLD ≤ intent.secondConfidence.getD 0 then
                intent.secondBest
              else none,
            question := none }) ∧
      (CLARIFY_LOWER_THRESHOLD ≤ intent.confidence →
        intent.confidence < ROUTE_AT_THRESHOLD →
        route_intent intent =
          { kind := "clarify", primary := none, maybeSecondary := none,
            question := some ("Did you want to " ++
              underscores_to_spaces (to_snake_case intent.label) ++ "?") }) ∧
      (intent.confidence < CLARIFY_LOWER_THRESHOLD →
        route_intent intent =
          { kind := "fallback", primary := none, maybeSecondary := none,
            question := none }) ∧
      (route_intent { intent with confidence := 0.80 }).kind = "commit" ∧
      (route_intent { intent with confidence := 0.50 }).kind = "clarify" ∧
      (route_intent { intent with confidence := 0.10 }).kind = "fallback" := by
  intro intent
  refine ⟨fun h => ?_, fun h1 h2 => ?_, fun h => ?_, ?_, ?_, ?_⟩
  · rw [route_intent, if_pos h]
  · rw [route_intent, if_neg (not_le.mpr h2), if_pos h1]
  · rw [route_intent, if_neg (not_le.mpr (lt_trans h (by norm_num [CLARIFY_LOWER_THRESHOLD, ROUTE_AT_THRESHOLD]))),
      if_neg (not_le.mpr h)]
  · rw [route_intent, if_pos (by norm_num [ROUTE_AT_THRESHOLD])]
  · rw [route_intent, if_neg (by norm_num [ROUTE_AT_THRESHOLD]),
      if_pos (by norm_num [CLARIFY_LOWER_THRESHOLD])]
  · rw [route_intent, if_neg (by norm_num [ROUTE_AT_THRESHOLD]),
      if_neg (by norm_num [CLARIFY_LOWER_THRESHOLD])]

/-- Sample routed intent used to witness the routing thresholds. -/
def c7_sample (c : ℚ) : RoutedIntentM :=
  { label := "EntryCreate", rawLabel := "Entry Create", confidence := c,
    secondBest := some "EntryAppend", secondConfidence := some 0.62 }

/-- C7 witness: the three threshold branches of `C7_route_thresholds`
applied at confidences `0.80`, `0.50` and `0.10`. -/
theorem C7_route_thresholds_witness :
    route_intent (c7_sample 0.80) =
      { kind := "commit", primary := some "EntryCreate",
        maybeSecondary :=
          if SECONDARY_INTENT_THRESHOLD ≤ (some (0.62 : ℚ)).getD 0 then
            some "EntryAppend"
          else none,
        question := none } ∧
    route_intent (c7_sample 0.50) =
      { kind := "clarify", primary := none, maybeSecondary := none,
        question := some ("Did you want to " ++
          underscores_to_spaces (to_snake_case "EntryCreate") ++ "?") } ∧
    route_intent (c7_sample 0.10) =
      { kind := "fallback", primary := none, maybeSecondary := none,
        question := none } :=
  ⟨(C7_route_thresholds _).1 (by norm_num [ROUTE_AT_THRESHOLD, c7_sample]),
   (C7_route_thresholds _).2.1 (by norm_num [CLARIFY_LOWER_THRESHOLD, c7_sample])
     (by norm_num [ROUTE_AT_THRESHOLD, c7_sample]),
   (C7_route_thresholds _).2.2.1 (by norm_num [CLARIFY_LOWER_THRESHOLD, c7_sample])⟩

/-- C2: evaluating `_derive_slots` on `"schedule a call next friday at 3pm"`
for a schedule-labeled intent at the fixed clock 2026-10-12T00:00:00Z (a
Monday, `weekday() = 0`) produces a start slot on 2026-10-17, which is a
Saturday (`weekday() = 5`), not the upcoming Friday 2026-10-16
(`weekday() = 4`), and no end slot since an explicit clock time was given:
the Sunday-based `WEEKDAY_ORDER` table is combined with the Monday-based
`datetime.weekday()`. -/
theorem C2_slot_filler_weekday_eval :
    derive_slots "schedule a call next friday at 3pm"
        { label := "ScheduleCreate", rawLabel := "schedule_create", confidence := 0.9 }
        1791763200000 =
      Except.ok [("start", "2026-10-17T15:00:00Z")] ∧
    py_weekday 1791763200000 = 0 ∧
    py_weekday (86400000 * daysFromCivil 2026 10 17) = 5 ∧
    py_weekday (86400000 * daysFromCivil 2026 10 16) = 4 ∧
    minutes_to_iso (86400000 * daysFromCivil 2026 10 17 + 15 * 3600000) =
      "2026-10-17T15:00:00Z" := by
  refine ⟨?_, by decide, by decide, by decide, ?_⟩
  · with_unfolding_all rfl
  · with_unfolding_all rfl

/-- C4: the mask/unmask round trip fails on
`"7 pm 555-123-4567 Oak Street"`, a text with no placeholder-like substring
(it contains no bracket at all): the phone pass masks the number, then the
address pass absorbs the placeholder `[PHONE_0]` into the value of
`[ADDR_0]`, and since `unmask` replaces phone placeholders before address
placeholders, the final output retains a literal `[PHONE_0]`. -/
theorem C4_roundtrip_eval :
    containsStr "[" "7 pm 555-123-4567 Oak Street" = false ∧
    Redactor.mask "7 pm 555-123-4567 Oak Street" =
      { masked := "[ADDR_0]",
        replacementMap := [("[PHONE_0]", "555-123-4567"),
          ("[ADDR_0]", "7 pm [PHONE_0] Oak Street")] } ∧
    Redactor.unmask
        (Redactor.mask "7 pm 555-123-4567 Oak Street").masked
        (Redactor.mask "7 pm 555-123-4567 Oak Street").replacementMap =
      "7 pm [PHONE_0] Oak Street" ∧
    ("7 pm [PHONE_0] Oak Street" = "7 pm 555-123-4567 Oak Street") = False := by
  refine ⟨by with_unfolding_all rfl, by with_unfolding_all rfl,
    by with_unfolding_all rfl, by simp⟩

/-- The candidate-list invariant of the classifier output: a non-empty
`topCandidates` list whose head carries the returned label and confidence
and whose confidences are non-increasing. -/
def candidates_invariant (c : Classification) : Prop :=
  c.topCandidates ≠ [] ∧
  c.topCandidates.head? = some (c.label, c.confidence) ∧
  List.Chain' confGe c.topCandidates

theorem chain_one (a : String × ℚ) : List.Chain' confGe [a] :=
  List.chain'_singleton a

theorem chain_two {a b : String × ℚ} (h1 : confGe a b) : List.Chain' confGe [a, b] :=
  List.chain'_cons.mpr ⟨h1, chain_one b⟩

theorem chain_three {a b c : String × ℚ} (h1 : confGe a b) (h2 : confGe b c) :
    List.Chain' confGe [a, b, c] :=
  List.chain'_cons.mpr ⟨h1, chain_two h2⟩

theorem fallthrough_invariant (reasons0 : List String) (dm : Option DuplicateMeta)
    (cs : Option WindowSnap) (iq : Bool) :
    candidates_invariant (classify_fallthrough reasons0 dm cs iq) := by
  refine ⟨List.cons_ne_nil _ _, rfl, chain_three ?_ ?_⟩ <;>
    (simp only [confGe]; first
      | (split_ifs <;> norm_num)
      | norm_num)

theorem tail_invariant (reasons0 : List String) (dm : Option DuplicateMeta)
    (cs : Option WindowSnap) (iq : Bool) (recent : List RecentMessage) :
    candidates_invariant (classify_tail reasons0 dm cs iq recent) := by
  unfold classify_tail
  cases dm with
  | none => exact fallthrough_invariant _ _ _ _
  | some d =>
    dsimp only
    split_ifs with h
    · exact ⟨List.cons_ne_nil _ _, rfl,
        chain_three (by norm_num [confGe]) (by norm_num [confGe])⟩
    · exact fallthrough_invariant _ _ _ _

set_option maxHeartbeats 1000000 in
/-- C10: for every input text, memory-record list, window snapshot and
recent-message ring, the classifier result has a non-empty
`topCandidates` list whose first entry equals the returned label and
confidence, and the candidates are listed in non-increasing confidence
order. -/
theorem C10_classifier_candidates :
    ∀ (text : String) (records : List MemoryRecordM) (snap : Option WindowSnap)
      (recents : List RecentMessage),
      candidates_invariant (classify_riflett_intent text records snap recents) := by
  intro text records snap recents
  unfold classify_riflett_intent
  dsimp only
  repeat' split
  all_goals first
    | exact fallthrough_invariant _ _ _ _
    | exact tail_invariant _ _ _ _ _
    | exact ⟨List.cons_ne_nil _ _, rfl, chain_one _⟩
    | exact ⟨List.cons_ne_nil _ _, rfl,
        chain_two (by simp only [confGe]; first
          | (split_ifs <;> norm_num)
          | norm_num)⟩
    | exact ⟨List.cons_ne_nil _ _, rfl,
        chain_three
          (by simp only [confGe]; first
            | (split_ifs <;> norm_num)
            | norm_num)
          (by simp only [confGe]; first
            | (split_ifs <;> norm_num)
            | norm_num)⟩

/-- The pruned ring never exceeds the cap MAX_SEMANTIC_TURNS. -/
theorem prune_length_le (l : List RecentMessage) :
    (prune_low_signal_messages l).length ≤ MAX_SEMANTIC_TURNS := by
  unfold prune_low_signal_messages
  simp only [List.length_drop]
  omega

/-- The pruned ring is sorted ascending by timestamp. -/
theorem prune_sorted (l : List RecentMessage) :
    List.Sorted tsLe (prune_low_signal_messages l) := by
  unfold prune_low_signal_messages
  exact (List.sorted_insertionSort tsLe _).sublist (List.drop_sublist _ _)

/-- The low-signal selection pass keeps every receipt message. -/
theorem select_mem_of_receipt :
    ∀ (xs acc : List RecentMessage) (m : RecentMessage),
      (m ∈ acc ∨ (m ∈ xs ∧ m.isReceipt = true)) →
      m ∈ xs.foldl
        (fun acc m =>
          if m.isReceipt then acc ++ [m]
          else if acc.length < MAX_SEMANTIC_TURNS then acc ++ [m]
          else acc) acc := by
  intro xs
  induction xs with
  | nil =>
    intro acc m h
    simp only [List.foldl_nil]
    rcases h with h | ⟨h, _⟩
    · exact h
    · cases h
  | cons x t ih =>
    intro acc m h
    simp only [List.foldl_cons]
    apply ih
    rcases h with h | ⟨hm, hr⟩
    · left
      split_ifs <;> simp [h]
    · rcases List.mem_cons.mp hm with rfl | hmt
      · left
        rw [if_pos hr]
        simp
      · right
        exact ⟨hmt, hr⟩

/-- A receipt present in the input survives up to the final hard-cap drop. -/
theorem receipt_mem_preserved (l : List RecentMessage) (m : RecentMessage)
    (hr : m.isReceipt = true) (hm : m ∈ l) :
    m ∈ List.insertionSort tsLe
      ((List.insertionSort tsGe l).foldl
        (fun acc m =>
          if m.isReceipt then acc ++ [m]
          else if acc.length < MAX_SEMANTIC_TURNS then acc ++ [m]
          else acc) []) := by
  rw [List.mem_insertionSort]
  exact select_mem_of_receipt _ [] m (Or.inr ⟨(List.mem_insertionSort tsGe).mpr hm, hr⟩)

/-- When a receipt is dropped, the ring is exactly full and keeps only
messages whose timestamps are at least the timestamp of the dropped receipt. -/
theorem dropped_receipt_bounds (l : List RecentMessage) (m : RecentMessage)
    (hr : m.isReceipt = true) (hm : m ∈ l)
    (hout : m ∉ prune_low_signal_messages l) :
    (prune_low_signal_messages l).length = MAX_SEMANTIC_TURNS ∧
    ∀ k ∈ prune_low_signal_messages l, m.ts ≤ k.ts := by
  have hmem := receipt_mem_preserved l m hr hm
  set asc := List.insertionSort tsLe
      ((List.insertionSort tsGe l).foldl
        (fun acc m =>
          if m.isReceipt then acc ++ [m]
          else if acc.length < MAX_SEMANTIC_TURNS then acc ++ [m]
          else acc) []) with hasc
  have hprune : prune_low_signal_messages l = asc.drop (asc.length - MAX_SEMANTIC_TURNS) := by
    rw [prune_low_signal_messages, hasc]
  have hsorted : List.Sorted tsLe asc := List.sorted_insertionSort tsLe _
  have hsplit : asc.take (asc.length - MAX_SEMANTIC_TURNS) ++
      asc.drop (asc.length - MAX_SEMANTIC_TURNS) = asc := List.take_append_drop _ _
  have hm_take : m ∈ asc.take (asc.length - MAX_SEMANTIC_TURNS) := by
    have := hmem
    rw [← hsplit] at this
    rcases List.mem_append.mp this with h | h
    · exact h
    · exact absurd h (by rw [hprune] at hout; exact hout)
  have htk_ne : asc.take (asc.length - MAX_SEMANTIC_TURNS) ≠ [] :=
    List.ne_nil_of_mem hm_take
  have hlen_big : MAX_SEMANTIC_TURNS + 1 ≤ asc.length := by
    by_contra hc
    push_neg at hc
    have : asc.length - MAX_SEMANTIC_TURNS = 0 := by omega
    rw [this] at htk_ne
    simp at htk_ne
  constructor
  · rw [hprune, List.length_drop]
    omega
  · intro k hk
    rw [hprune] at hk
    have hpw : List.Pairwise tsLe
        (asc.take (asc.length - MAX_SEMANTIC_TURNS) ++
          asc.drop (asc.length - MAX_SEMANTIC_TURNS)) := by
      rw [hsplit]
      exact hsorted
    exact (List.pairwise_append.mp hpw).2.2 m hm_take k hk

/-- One record_user_message call either leaves the ring unchanged or replaces
it with the pruned extension. -/
theorem record_ring_shape (st : Option WindowState) (r : List RecentMessage)
    (t : List Char) (ts : Int) :
    (record_user_message st r t ts).2 = r ∨
    ∃ msg, (record_user_message st r t ts).2 =
      prune_low_signal_messages (r ++ [msg]) := by
  unfold record_user_message
  split_ifs
  · left; rfl
  · right; exact ⟨_, rfl⟩

/-- Any fold of record_user_message calls keeps the ring capped and sorted. -/
theorem fold_ring_invariant :
    ∀ (ops : List (List Char × Int)) (r : List RecentMessage),
      r.length ≤ MAX_SEMANTIC_TURNS → List.Sorted tsLe r →
      (ops.foldl (fun r p => (record_user_message none r p.1 p.2).2) r).length ≤
          MAX_SEMANTIC_TURNS ∧
        List.Sorted tsLe
          (ops.foldl (fun r p => (record_user_message none r p.1 p.2).2) r) := by
  intro ops
  induction ops with
  | nil => intro r h1 h2; exact ⟨h1, h2⟩
  | cons p t ih =>
    intro r h1 h2
    simp only [List.foldl_cons]
    rcases record_ring_shape none r p.1 p.2 with h | ⟨msg, h⟩
    · rw [h]; exact ih r h1 h2
    · rw [h]; exact ih _ (prune_length_le _) (prune_sorted _)

/-- C3 (amended): starting from an empty ring, every sequence of
record_user_message calls leaves the ring with at most MAX_SEMANTIC_TURNS
messages, sorted ascending by timestamp; the low-signal pass preserves
receipts, but the hard cap can drop them: whenever a receipt present before
pruning is missing afterwards, the pruned ring holds exactly
MAX_SEMANTIC_TURNS messages and every retained message has a timestamp at
least that of the dropped receipt, so drops happen oldest-first. -/
theorem C3_ring_pruning :
    (∀ (ops : List (List Char × Int)),
      (ops.foldl (fun r p => (record_user_message none r p.1 p.2).2) []).length ≤
          MAX_SEMANTIC_TURNS ∧
        List.Sorted tsLe
          (ops.foldl (fun r p => (record_user_message none r p.1 p.2).2) [])) ∧
    ∀ (l : List RecentMessage) (m : RecentMessage),
      m.isReceipt = true → m ∈ l → m ∉ prune_low_signal_messages l →
        (prune_low_signal_messages l).length = MAX_SEMANTIC_TURNS ∧
        ∀ k ∈ prune_low_signal_messages l, m.ts ≤ k.ts :=
  ⟨fun ops => fold_ring_invariant ops [] (by simp) List.sorted_nil,
   fun l m hr hm hout => dropped_receipt_bounds l m hr hm hout⟩

def c3_counter_ring : List RecentMessage :=
  (List.range 11).foldl
    (fun r i => (record_user_message none r "receipt".toList ((i : Int) + 1)).2) []

/-- C3 counterexample to the original claim: recording eleven receipt
messages with timestamps 1 to 11 leaves a ring of ten messages, all
receipts, all with timestamp at least 2, so the receipt recorded at
timestamp 1 was removed by pruning even though it was flagged as a receipt. -/
theorem C3_receipt_dropped :
    c3_counter_ring.length = 10 ∧
    (c3_counter_ring.all fun m => m.isReceipt) = true ∧
    (c3_counter_ring.all fun m => decide (2 ≤ m.ts)) = true ∧
    is_receipt_message "receipt".toList = true := by decide

def c3_witness_msgs : List RecentMessage :=
  (List.range 11).map fun i => ⟨"receipt".toList, (i : Int) + 1, 1, true⟩

/-- C3 witness: the receipt conjunct of the amended theorem applied to a
concrete eleven-receipt list with the receipt of timestamp 1 dropped. -/
theorem C3_ring_pruning_witness :
    (prune_low_signal_messages c3_witness_msgs).length = MAX_SEMANTIC_TURNS ∧
    ∀ k ∈ prune_low_signal_messages c3_witness_msgs,
      (⟨"receipt".toList, 1, 1, true⟩ : RecentMessage).ts ≤ k.ts :=
  C3_ring_pruning.2 c3_witness_msgs ⟨"receipt".toList, 1, 1, true⟩
    (by rfl) (by decide) (by decide)

/-- One upsert call leaves the row store at or under MAX_CACHED_ROWS. -/
theorem upsert_length_le (l2n : List ℚ → List ℚ) (cache : List MemoryRow)
    (o : UpsertOptions) (now : Int) :
    (upsert l2n cache o now).length ≤ MAX_CACHED_ROWS := by
  simp only [upsert]
  split_ifs <;> first
  | (simp only [List.length_take]; omega)
  | omega

/-- Any fold of upsert calls keeps the row store capped, given a capped start. -/
theorem fold_upsert_le (l2n : List ℚ → List ℚ) (now : Int) :
    ∀ (ops : List UpsertOptions) (c : List MemoryRow),
      c.length ≤ MAX_CACHED_ROWS →
      (ops.foldl (fun c o => upsert l2n c o now) c).length ≤ MAX_CACHED_ROWS := by
  intro ops
  induction ops with
  | nil => intro c h; exact h
  | cons o t ih =>
    intro c h
    simp only [List.foldl_cons]
    exact ih _ (upsert_length_le l2n c o now)

/-- A pre-existing row of a different id that the upsert drops is evicted:
the store is left exactly full and every kept row has a timestamp at least
that of the evicted row. -/
theorem upsert_evicted_bounds (l2n : List ℚ → List ℚ) (cache : List MemoryRow)
    (o : UpsertOptions) (now : Int) (r : MemoryRow)
    (hmem : r ∈ cache) (hid : r.id ≠ o.id)
    (hout : r ∉ upsert l2n cache o now) :
    (upsert l2n cache o now).length = MAX_CACHED_ROWS ∧
    ∀ k ∈ upsert l2n cache o now, r.ts ≤ k.ts := by
  simp only [upsert] at hout ⊢
  set ts := o.ts.getD now with hts
  set rawEmbedding :=
    (match o.embedding with
     | some e => if e = [] then embed_text_with l2n o.text else e
     | none => embed_text_with l2n o.text) with hraw
  set row : MemoryRow := ⟨o.id, o.kind, o.text, ts, l2n rawEmbedding⟩ with hrow
  set cache1 :=
    (if cache.any fun r => r.id = row.id then
      cache.map fun r => if r.id = row.id then row else r
    else cache ++ [row]) with hc1
  have hr1 : r ∈ cache1 := by
    rw [hc1]
    split_ifs with hany
    · refine List.mem_map.mpr ⟨r, hmem, ?_⟩
      rw [if_neg]
      rw [hrow]
      exact hid
    · exact List.mem_append_left _ hmem
  split_ifs at hout ⊢ with hover
  · set desc := List.insertionSort rowTsGe cache1 with hdesc
    have hlen : desc.length = cache1.length := List.length_insertionSort _ _
    have hrd : r ∈ desc := by
      rw [hdesc, List.mem_insertionSort]
      exact hr1
    have hsplit : desc.take MAX_CACHED_ROWS ++ desc.drop MAX_CACHED_ROWS = desc :=
      List.take_append_drop _ _
    have hrdrop : r ∈ desc.drop MAX_CACHED_ROWS := by
      have := hrd
      rw [← hsplit] at this
      rcases List.mem_append.mp this with h | h
      · exact absurd h hout
      · exact h
    constructor
    · simp only [List.length_take]
      omega
    · intro k hk
      have hpw : List.Pairwise rowTsGe
          (desc.take MAX_CACHED_ROWS ++ desc.drop MAX_CACHED_ROWS) := by
        rw [hsplit]
        exact List.sorted_insertionSort rowTsGe cache1
      exact (List.pairwise_append.mp hpw).2.2 k hk r hrdrop
  · exact absurd hr1 hout

/-- C5: after any upsert the row store holds at most MAX_CACHED_ROWS rows,
any fold of upserts starting from an empty store stays capped, and whenever
an upsert drops a pre-existing row of a different id, the store is left with
exactly MAX_CACHED_ROWS rows, every kept row at least as new as the dropped
one (oldest-timestamp-first eviction). -/
theorem C5_upsert_capacity :
    (∀ (l2n : List ℚ → List ℚ) (cache : List MemoryRow) (o : UpsertOptions)
      (now : Int), (upsert l2n cache o now).length ≤ MAX_CACHED_ROWS) ∧
    (∀ (l2n : List ℚ → List ℚ) (now : Int) (ops : List UpsertOptions),
      (ops.foldl (fun c o => upsert l2n c o now) []).length ≤ MAX_CACHED_ROWS) ∧
    ∀ (l2n : List ℚ → List ℚ) (cache : List MemoryRow) (o : UpsertOptions)
      (now : Int) (r : MemoryRow),
      r ∈ cache → r.id ≠ o.id → r ∉ upsert l2n cache o now →
      (upsert l2n cache o now).length = MAX_CACHED_ROWS ∧
      ∀ k ∈ upsert l2n cache o now, r.ts ≤ k.ts :=
  ⟨upsert_length_le,
   fun l2n now ops => fold_upsert_le l2n now ops [] (by simp),
   fun l2n cache o now r hmem hid hout =>
     upsert_evicted_bounds l2n cache o now r hmem hid hout⟩

def c5_cache : List MemoryRow :=
  (List.range 512).map fun i => ⟨toString i, "entry", "", -(i : Int), []⟩

def c5_opts : UpsertOptions := ⟨"new", "entry", "fresh", some 1, some [1]⟩

def c5_dropped : MemoryRow := ⟨"511", "entry", "", -511, []⟩

set_option maxRecDepth 100000 in
/-- C5 witness: the eviction conjunct applied to a concrete full store of
512 rows, where upserting a row of a fresh id evicts the oldest row. -/
theorem C5_upsert_capacity_witness :
    (upsert (fun v => v) c5_cache c5_opts 0).length = MAX_CACHED_ROWS ∧
    ∀ k ∈ upsert (fun v => v) c5_cache c5_opts 0, c5_dropped.ts ≤ k.ts :=
  C5_upsert_capacity.2.2 (fun v => v) c5_cache c5_opts 0 c5_dropped
    (by decide) (by decide) (by decide)

/-- The FNV accumulation loop preserves the vector length. -/
theorem accum_go_length :
    ∀ (bytes : List Nat) (i h : Nat) (out : List ℚ),
      (fallback_accum_go bytes i h out).length = out.length := by
  intro bytes
  induction bytes with
  | nil => intro i h out; rfl
  | cons b t ih =>
    intro i h out
    simp only [fallback_accum_go]
    rw [ih]
    exact List.length_set out _ _

/-- The raw fallback embedding always has dimension 384. -/
theorem fallback_pre_length (text : List Char) :
    (fallback_embed_pre text).length = FALLBACK_DIMENSION := by
  unfold fallback_embed_pre fallback_accum
  rw [accum_go_length]
  simp

/-- Dividing a rational vector by a real scalar divides its sum of squares
by the square of the scalar. -/
theorem sumSq_cast_div (l : List ℚ) (r : ℝ) :
    (l.map fun q : ℚ => ((q : ℝ) / r) ^ 2).sum = ((sumSq l : ℚ) : ℝ) / r ^ 2 := by
  induction l with
  | nil => simp [sumSq]
  | cons a t ih =>
    have hs : sumSq (a :: t) = a * a + sumSq t := by
      simp [sumSq]
    rw [List.map_cons, List.sum_cons, ih, hs]
    push_cast
    rw [div_pow, div_add_div_same, sq]

/-- The all-zero vector has sum of squares zero. -/
theorem sumSq_replicate_zero : ∀ n : Nat, sumSq (List.replicate n 0) = 0 := by
  intro n
  induction n with
  | zero => rfl
  | succ k ih =>
    simp only [List.replicate_succ, sumSq, List.map_cons, List.sum_cons] at ih ⊢
    rw [ih]
    ring

/-- Updating one slot of a zero vector gives sum of squares equal to the
square of the written value. -/
theorem sumSq_set_zero :
    ∀ (n i : Nat) (c : ℚ), i < n →
      sumSq ((List.replicate n (0 : ℚ)).set i c) = c * c := by
  intro n
  induction n with
  | zero => intro i c hi; omega
  | succ k ih =>
    intro i c hi
    match i with
    | 0 =>
      simp only [List.replicate_succ, List.set_cons_zero, sumSq, List.map_cons,
        List.sum_cons]
      have := sumSq_replicate_zero k
      simp only [sumSq] at this
      rw [this]
      ring
    | j + 1 =>
      simp only [List.replicate_succ, List.set_cons_succ, sumSq, List.map_cons,
        List.sum_cons]
      have := ih j c (by omega)
      simp only [sumSq] at this
      rw [this]
      ring

/-- The raw fallback embedding of the text a: byte 97 lands in slot 44. -/
theorem c9_accum_eval :
    fallback_embed_pre "a".toList =
      (List.replicate 384 (0 : ℚ)).set 44
        ((List.replicate 384 (0 : ℚ)).getD 44 0 +
          (((97 : Nat) : ℚ) / 255 * 2 - 1)) := by
  rfl

set_option maxRecDepth 2000 in
/-- The raw fallback embedding of the text a is a nonzero vector. -/
theorem c9_sumSq_pos : (0 : ℚ) < sumSq (fallback_embed_pre "a".toList) := by
  rw [c9_accum_eval]
  rw [show (List.replicate 384 (0 : ℚ)).getD 44 0 = 0 from rfl]
  rw [sumSq_set_zero 384 44 _ (by norm_num)]
  norm_num

/-- C9 (amended): with no custom embedder, embed_text always returns a
vector of dimension 384 (given that the normalizer preserves length, as
l2_normalize does); for every text, dividing the raw fallback vector by any
positive real whose square is its sum of squares (that is, by its exact L2
norm, when nonzero) yields a vector whose sum of squared entries is exactly
1. The original claim fails for the empty text, whose embedding is the
all-zero vector of norm 0. -/
theorem C9_embedding_unit :
    (∀ (l2n : List ℚ → List ℚ) (text : String),
      (∀ v, (l2n v).length = v.length) →
      (embed_text_with l2n text).length = FALLBACK_DIMENSION) ∧
    ∀ (text : String) (r : ℝ), 0 < r →
      r ^ 2 = ((sumSq (fallback_embed_pre text.toList) : ℚ) : ℝ) →
      ((fallback_embed_pre text.toList).map fun q : ℚ => ((q : ℝ) / r) ^ 2).sum = 1 := by
  constructor
  · intro l2n text hlen
    unfold embed_text_with
    split_ifs
    · simp
    · rw [hlen]
      exact fallback_pre_length _
  · intro text r hr hr2
    rw [sumSq_cast_div _ r, ← hr2]
    exact div_self (pow_ne_zero 2 (ne_of_gt hr))

/-- C9 counterexample to the original claim: the empty text embeds to the
all-zero vector of dimension 384, whose sum of squares is 0, so its L2 norm
is 0 and not 1. -/
theorem C9_empty_not_unit :
    embed_text_with (fun v => v) "" = List.replicate FALLBACK_DIMENSION 0 ∧
    sumSq (List.replicate FALLBACK_DIMENSION 0) = 0 ∧ (0 : ℚ) ≠ 1 :=
  ⟨rfl, sumSq_replicate_zero FALLBACK_DIMENSION, by decide⟩

/-- C9 witness: both conjuncts applied to the concrete text a, normalizing
by the real square root of the sum of squares of its raw embedding. -/
theorem C9_embedding_unit_witness :
    (embed_text_with (fun v => v) "a").length = FALLBACK_DIMENSION ∧
    ((fallback_embed_pre "a".toList).map
      fun q : ℚ => ((q : ℝ) /
        Real.sqrt ((sumSq (fallback_embed_pre "a".toList) : ℚ) : ℝ)) ^ 2).sum = 1 := by
  have hS : (0 : ℝ) < ((sumSq (fallback_embed_pre "a".toList) : ℚ) : ℝ) := by
    exact_mod_cast c9_sumSq_pos
  exact ⟨C9_embedding_unit.1 (fun v => v) "a" (fun v => rfl),
    C9_embedding_unit.2 "a" (Real.sqrt _) (Real.sqrt_pos.mpr hS) (Real.sq_sqrt hS.le)⟩

def c1text : String := "remember to call mom tomorrow"

/-- The classification of the C1 utterance against empty context. -/
def c1cls : Classification :=
  ⟨"entry_create", 97/100,
   ["Declarative content suitable for structured capture",
    "Explicit save/log intent detected", "Temporal marker detected"],
   none, none, none,
   [("entry_create", 97/100), ("entry_append", 31/50), ("conversational", 3/5)]⟩

/-- The routed intent of the C1 utterance, before and after slot filling. -/
def c1routed : RoutedIntentM :=
  ⟨"EntryCreate", "Entry Create", 97/100, some "EntryAppend", some (31/50), [],
   [("Entry Create", 97/100), ("Entry Append", 31/50), ("Conversational", 3/5)],
   [("EntryCreate", []), ("EntryAppend", []), ("Conversational", [])],
   some "riflett-heuristic-2025-11-07", some []⟩

theorem c1_strip : stripStr c1text = c1text := by with_unfolding_all rfl

theorem c1_search (l2n : List ℚ → List ℚ) (now : Int) :
    search_top_n l2n none [] [] now c1text ["entry", "goal", "event", "pref"] 5 =
      ([], []) := by with_unfolding_all rfl

theorem c1_score (fns : RealFns) (nowHour : Int) :
    score_context_records fns [] none nowHour = [] := by with_unfolding_all rfl

theorem c1_classify :
    classify_riflett_intent c1text [] (snapshot none) [] = c1cls := by
  with_unfolding_all rfl

theorem c1_native_routed :
    build_routed_intent
      { label := to_native_label c1cls.label
        confidence := c1cls.confidence
        topK := c1cls.topCandidates.map fun c => (to_native_label c.1, c.2)
        matchedTokens := []
        modelVersion := some "riflett-heuristic-2025-11-07"
        tokens := some [] } [] = c1routed := by
  with_unfolding_all rfl

theorem c1_fill (now : Int) :
    fillSlots c1text c1routed now = .ok c1routed := by with_unfolding_all rfl

theorem c1_mask : Redactor.mask c1text = ⟨c1text, []⟩ := by with_unfolding_all rfl

theorem c1_route :
    route_intent c1routed = ⟨"commit", some "EntryCreate", some "EntryAppend", none⟩ := by
  with_unfolding_all rfl

theorem c1_goal :
    should_load_goal_context c1text c1routed c1cls = false := by
  with_unfolding_all rfl

/-- C1 (amended): for every collaborator bundle and clock,
handle_utterance on the text remember to call mom tomorrow with default
state and options never raises, commits (so the decision kind is commit or
clarify) with primary intent EntryCreate and secondary EntryAppend, masks
nothing (the non-empty user text passes through unchanged), assigns a trace
id, and produces an empty slot mapping: no date is resolved from tomorrow,
because date slots are only derived for schedule-labelled intents. -/
theorem C1_handle_utterance (fns : RealFns) (now nowHour : Int) (freshId : String) :
    (handle_utterance fns {} now nowHour freshId c1text {}).map
      (fun h => (h.decision.kind, h.decision.primary, h.decision.maybeSecondary,
        h.redaction.masked, h.payload.userText, h.routedIntent.slots,
        h.traceId.isSome)) =
    .ok ("commit", some "EntryCreate", some "EntryAppend", c1text, c1text,
      [], true) := by
  simp only [handle_utterance]
  rw [c1_strip]
  simp only [Option.getD_none, Option.isSome_none, Bool.or_self]
  rw [c1_search]
  simp only [Bool.false_eq_true, ite_false]
  rw [c1_score]
  simp only [List.map_nil]
  simp only [c1_classify, c1_native_routed, c1_fill, c1_mask, c1_route, c1_goal]
  with_unfolding_all rfl

/-- C1 counterexample to the original claim: at a concrete clock the call
succeeds and commits with unchanged non-empty user text, but the slot
mapping is empty even though the utterance contains the word tomorrow. -/
theorem C1_slots_empty :
    (handle_utterance ⟨fun v => v, fun q => q, fun q => q⟩ {} 1791763200000 0 "t1"
        c1text {}).map
      (fun h => (h.decision.kind, h.payload.userText, h.routedIntent.slots)) =
    .ok ("commit", c1text, []) ∧
    c1text ≠ "" ∧ containsStr "tomorrow" c1text = true := by
  refine ⟨?_, by decide, by decide⟩
  simp only [handle_utterance]
  rw [c1_strip]
  simp only [Option.getD_none, Option.isSome_none, Bool.or_self]
  rw [c1_search]
  simp only [Bool.false_eq_true, ite_false]
  rw [c1_score]
  simp only [List.map_nil]
  simp only [c1_classify, c1_native_routed, c1_fill, c1_mask, c1_route, c1_goal]
  with_unfolding_all rfl

end Rifty
